import Mathlib

/-!
# A shallow embedding of `chartit/validation.py`

This file embeds the input-validation / normalization module of
django-chartit (file `chartit/validation.py`) into Lean and proves
properties of it.

Modelling decisions:

* Python runtime values are modelled by the inductive type `PyVal`.  The
  module only ever manipulates `None`, booleans, ints, strings, lists,
  tuples, dicts, Django `Aggregate` instances, Django `QuerySet` instances
  and plain callables; opaque objects (aggregates, querysets, callables)
  are identified by a numeric id, and querysets resolve to their model and
  query through an explicit environment `Env`.
* Python dicts are insertion-ordered association lists
  (`List (PyVal × PyVal)`); assignment to an existing key keeps its
  position, assignment to a fresh key appends.
* Exceptions are modelled with `Except PyErr`; besides the module's own
  `APIInputError` the embedding tracks the other exception kinds the
  interpreter itself can raise on these code paths (`KeyError`,
  `AttributeError`, `TypeError`, `IndexError`).
* `copy.deepcopy` on immutable-by-embedding values is the identity.
  In-place mutation of the caller's argument (the `del term['_new_name']`
  statement) is embedded by explicit state passing: the converter returns
  the final state of its input argument next to its result.
* String formatting (`%s` / `%r`) is modelled by `pyStr` / `pyRepr`; for
  opaque objects (whose Python rendering contains a memory address) a
  deterministic stand-in rendering is used.
-/

namespace Chartit

/-- A Python runtime value as used by `chartit/validation.py`. -/
inductive PyVal : Type where
  | none : PyVal
  | bool : Bool → PyVal
  | int : Int → PyVal
  | str : String → PyVal
  | list : List PyVal → PyVal
  | tuple : List PyVal → PyVal
  | dict : List (PyVal × PyVal) → PyVal
  | agg : Nat → PyVal
  | qset : Nat → PyVal
  | func : Nat → PyVal

mutual

/-- Structural equality of `PyVal`s (Python `==` on the values this module uses). -/
def pvBeq : PyVal → PyVal → Bool
  | .none, .none => true
  | .bool a, .bool b => a == b
  | .int a, .int b => a == b
  | .str a, .str b => a == b
  | .list a, .list b => pvBeqList a b
  | .tuple a, .tuple b => pvBeqList a b
  | .dict a, .dict b => pvBeqEntries a b
  | .agg a, .agg b => a == b
  | .qset a, .qset b => a == b
  | .func a, .func b => a == b
  | _, _ => false

def pvBeqList : List PyVal → List PyVal → Bool
  | [], [] => true
  | a :: as, b :: bs => pvBeq a b && pvBeqList as bs
  | _, _ => false

def pvBeqEntries : List (PyVal × PyVal) → List (PyVal × PyVal) → Bool
  | [], [] => true
  | (k, v) :: as, (k', v') :: bs => pvBeq k k' && pvBeq v v' && pvBeqEntries as bs
  | _, _ => false

end

mutual

theorem pvBeq_refl : (a : PyVal) → pvBeq a a = true
  | .none => rfl
  | .bool a => by simp [pvBeq]
  | .int a => by simp [pvBeq]
  | .str a => by simp [pvBeq]
  | .list a => by simp [pvBeq, pvBeqList_refl a]
  | .tuple a => by simp [pvBeq, pvBeqList_refl a]
  | .dict a => by simp [pvBeq, pvBeqEntries_refl a]
  | .agg a => by simp [pvBeq]
  | .qset a => by simp [pvBeq]
  | .func a => by simp [pvBeq]

theorem pvBeqList_refl : (as : List PyVal) → pvBeqList as as = true
  | [] => rfl
  | a :: as => by simp [pvBeqList, pvBeq_refl a, pvBeqList_refl as]

theorem pvBeqEntries_refl : (as : List (PyVal × PyVal)) → pvBeqEntries as as = true
  | [] => rfl
  | (k, v) :: as => by
      simp [pvBeqEntries, pvBeq_refl k, pvBeq_refl v, pvBeqEntries_refl as]

end

mutual

theorem pvBeq_eq : (a b : PyVal) → pvBeq a b = true → a = b
  | .none, b, h => by cases b <;> simp_all [pvBeq]
  | .bool a, b, h => by cases b <;> simp_all [pvBeq]
  | .int a, b, h => by cases b <;> simp_all [pvBeq]
  | .str a, b, h => by cases b <;> simp_all [pvBeq]
  | .list a, b, h => by
      cases b <;> simp_all [pvBeq]
      case list bs => exact pvBeqList_eq a bs h
  | .tuple a, b, h => by
      cases b <;> simp_all [pvBeq]
      case tuple bs => exact pvBeqList_eq a bs h
  | .dict a, b, h => by
      cases b <;> simp_all [pvBeq]
      case dict bs => exact pvBeqEntries_eq a bs h
  | .agg a, b, h => by cases b <;> simp_all [pvBeq]
  | .qset a, b, h => by cases b <;> simp_all [pvBeq]
  | .func a, b, h => by cases b <;> simp_all [pvBeq]

theorem pvBeqList_eq : (as bs : List PyVal) → pvBeqList as bs = true → as = bs
  | [], [], _ => rfl
  | [], _ :: _, h => by simp [pvBeqList] at h
  | _ :: _, [], h => by simp [pvBeqList] at h
  | a :: as, b :: bs, h => by
      simp only [pvBeqList, Bool.and_eq_true] at h
      exact by rw [pvBeq_eq a b h.1, pvBeqList_eq as bs h.2]

theorem pvBeqEntries_eq :
    (as bs : List (PyVal × PyVal)) → pvBeqEntries as bs = true → as = bs
  | [], [], _ => rfl
  | [], _ :: _, h => by simp [pvBeqEntries] at h
  | _ :: _, [], h => by simp [pvBeqEntries] at h
  | (k, v) :: as, (k', v') :: bs, h => by
      simp only [pvBeqEntries, Bool.and_eq_true] at h
      exact by rw [pvBeq_eq k k' h.1.1, pvBeq_eq v v' h.1.2, pvBeqEntries_eq as bs h.2]

end

instance : BEq PyVal := ⟨pvBeq⟩

instance : LawfulBEq PyVal where
  eq_of_beq h := pvBeq_eq _ _ h
  rfl := pvBeq_refl _

instance : DecidableEq PyVal := fun a b =>
  decidable_of_iff (pvBeq a b = true) ⟨pvBeq_eq a b, fun h => h ▸ pvBeq_refl a⟩

/-- The exception kinds that can escape from the module's code paths.
The module itself only ever raises `apiInputError` (its `APIInputError`);
the remaining constructors are the interpreter-raised exceptions. -/
inductive PyErr : Type where
  | apiInputError : String → PyErr
  | keyError : PyVal → PyErr
  | attributeError : String → PyErr
  | typeError : String → PyErr
  | indexError : String → PyErr
  | valueError : String → PyErr
  deriving DecidableEq

/-- Python truthiness (`bool(v)`) for the values this module handles.
Opaque objects (aggregates, querysets, callables) are modelled as truthy. -/
def pyTruthy : PyVal → Bool
  | .none => false
  | .bool b => b
  | .int n => n != 0
  | .str s => s ≠ ""
  | .list xs => !xs.isEmpty
  | .tuple xs => !xs.isEmpty
  | .dict es => !es.isEmpty
  | .agg _ => true
  | .qset _ => true
  | .func _ => true

/-- Python `callable(v)`: among the values this module handles, only plain
callables qualify. -/
def pyCallable : PyVal → Bool
  | .func _ => true
  | _ => false

/-- The name of the Python type of a value, as it appears inside
`str(type(v))`. -/
def pyTypeName : PyVal → String
  | .none => "NoneType"
  | .bool _ => "bool"
  | .int _ => "int"
  | .str _ => "str"
  | .list _ => "list"
  | .tuple _ => "tuple"
  | .dict _ => "dict"
  | .agg _ => "Aggregate"
  | .qset _ => "QuerySet"
  | .func _ => "function"

/-- `str(type(v))` as interpolated by `%s` in the module's error messages. -/
def pyType (v : PyVal) : String := "<class '" ++ pyTypeName v ++ "'>"

mutual

/-- Python `repr(v)`, used for `%r` interpolation and for elements inside
containers.  For opaque objects a deterministic stand-in is used. -/
def pyRepr : PyVal → String
  | .none => "None"
  | .bool true => "True"
  | .bool false => "False"
  | .int n => toString n
  | .str s => "'" ++ s ++ "'"
  | .list xs => "[" ++ pyReprList xs ++ "]"
  | .tuple [x] => "(" ++ pyRepr x ++ ",)"
  | .tuple xs => "(" ++ pyReprList xs ++ ")"
  | .dict es => "\x7b" ++ pyReprEntries es ++ "\x7d"
  | .agg n => "<Aggregate " ++ toString n ++ ">"
  | .qset n => "<QuerySet " ++ toString n ++ ">"
  | .func n => "<function " ++ toString n ++ ">"

def pyReprList : List PyVal → String
  | [] => ""
  | [x] => pyRepr x
  | x :: xs => pyRepr x ++ ", " ++ pyReprList xs

def pyReprEntries : List (PyVal × PyVal) → String
  | [] => ""
  | [(k, v)] => pyRepr k ++ ": " ++ pyRepr v
  | (k, v) :: es => pyRepr k ++ ": " ++ pyRepr v ++ ", " ++ pyReprEntries es

end

/-- Python `str(v)`, used for `%s` interpolation: like `repr` except that a
top-level string is rendered without quotes. -/
def pyStr : PyVal → String
  | .str s => s
  | v => pyRepr v

/-- Python `%`-formatting with one conversion and a single implicit operand
(`"... %s ..." % v`): a tuple operand is treated as the argument list, so a
1-tuple formats its element, an empty tuple raises `TypeError: not enough
arguments`, and a longer tuple raises `TypeError: not all arguments
converted`; any non-tuple operand is rendered by `render` and spliced into
the message by `mk`. -/
def pyFmt1With (render : PyVal → String) (mk : String → String) (v : PyVal) :
    Except PyErr String :=
  match v with
  | .tuple [x] => .ok (mk (render x))
  | .tuple [] => .error (.typeError "not enough arguments for format string")
  | .tuple _ =>
    .error (.typeError "not all arguments converted during string formatting")
  | _ => .ok (mk (render v))

/-- `raise APIInputError("... %s ..." % v)`: the resulting exception is the
`APIInputError` when the `%s` interpolation succeeds and the interpolation's
own `TypeError` when it does not. -/
def apiErrFmt1 (mk : String → String) (v : PyVal) : PyErr :=
  match pyFmt1With pyStr mk v with
  | .ok m => .apiInputError m
  | .error e => e

/-- `raise APIInputError("... %r ..." % v)`: as `apiErrFmt1` but with `repr`
conversion. -/
def apiErrFmt1R (mk : String → String) (v : PyVal) : PyErr :=
  match pyFmt1With pyRepr mk v with
  | .ok m => .apiInputError m
  | .error e => e

/-- A Python dict: an insertion-ordered association list with unique keys. -/
abbrev PyDict := List (PyVal × PyVal)

/-- `d[k]` as an `Option` (`d.get(k)`). -/
def dlookup (d : PyDict) (k : PyVal) : Option PyVal :=
  match d with
  | [] => Option.none
  | (k', v) :: d => if k' = k then some v else dlookup d k

/-- `k in d`. -/
def dmem (d : PyDict) (k : PyVal) : Bool := (dlookup d k).isSome

/-- `d[k] = v`: replace in place if the key exists, else append. -/
def dinsert (d : PyDict) (k : PyVal) (v : PyVal) : PyDict :=
  match d with
  | [] => [(k, v)]
  | (k', v') :: d => if k' = k then (k', v) :: d else (k', v') :: dinsert d k v

/-- `del d[k]` (removes the first matching key; a no-op if absent). -/
def ddel (d : PyDict) (k : PyVal) : PyDict :=
  match d with
  | [] => []
  | (k', v') :: d => if k' = k then d else (k', v') :: ddel d k

/-- `d.update(d2)` for a dict argument. -/
def dupdate (d : PyDict) (d2 : PyDict) : PyDict :=
  d2.foldl (fun acc kv => dinsert acc kv.1 kv.2) d

/-- `d.setdefault(k, v)`. -/
def dsetdefault (d : PyDict) (k : PyVal) (v : PyVal) : PyDict :=
  if dmem d k then d else d ++ [(k, v)]

/-- `list(d.keys())`. -/
def dkeys (d : PyDict) : List PyVal := d.map Prod.fst

/-- `', '.join(xs)`: succeeds only when every element is a string
(otherwise Python raises a `TypeError`). -/
def pyJoinComma (xs : List PyVal) : Except PyErr String :=
  if xs.all (fun x => match x with | .str _ => true | _ => false) then
    .ok (String.intercalate ", " (xs.map pyStr))
  else
    .error (.typeError "sequence item: expected str instance")

/-! ## Splitting a lookup term on `'__'`

`term.split('__')` and `'__'.join(...)` from the field-lookup validator,
implemented on character lists (Python `str.split` with a fixed two-character
separator, leftmost non-overlapping matches). -/

/-- Prepend a character to the first segment (creating it if there is none). -/
def consHead (c : Char) : List (List Char) → List (List Char)
  | [] => [[c]]
  | seg :: segs => (c :: seg) :: segs

def splitDunderChars : List Char → List (List Char)
  | [] => [[]]
  | [c] => [[c]]
  | c1 :: c2 :: rest =>
    if c1 = '_' ∧ c2 = '_' then [] :: splitDunderChars rest
    else consHead c1 (splitDunderChars (c2 :: rest))


def dunderJoinChars : List (List Char) → List Char
  | [] => []
  | [s] => s
  | s :: rest => s ++ '_' :: '_' :: dunderJoinChars rest



/-- `term.split('__')`. -/
def pySplitDunder (s : String) : List String :=
  (splitDunderChars s.data).map (fun cs => ⟨cs⟩)

/-- `'__'.join(segs)`. -/
def dunderJoin : List String → String
  | [] => ""
  | [s] => s
  | s :: rest => s ++ "__" ++ dunderJoin rest



/-! ## The Django schema seen by the validator

`_validate_field_lookup_term` and `get_all_field_names` read the following
attributes of the external Django collaborators: `model._meta.get_fields()`,
`field.name`, `field.attname`, `field.is_relation`, `field.many_to_one`,
`field.related_model`, `field.model`, `field.model._meta.concrete_model`,
`field.auto_created`, `field.concrete`, `field.verbose_name`,
`model._meta.get_field(name)`, `query.annotations.keys()` and
`query.extra.keys()`.  They are modelled by the structures below; model
classes are identified by numeric ids. -/

structure FieldInfo where
  name : String
  attname : Option String
  isRelation : Bool
  manyToOne : Bool
  autoCreated : Bool
  concrete : Bool
  verboseName : String
  fieldModelId : Nat
  fieldModelConcreteId : Nat

mutual
inductive Model : Type where
  | mk : Nat → Nat → List Field → Model
inductive Field : Type where
  | mk : FieldInfo → Option Model → Field
end

def Model.modelId : Model → Nat
  | .mk i _ _ => i

def Model.concreteId : Model → Nat
  | .mk _ c _ => c

def Model.fields : Model → List Field
  | .mk _ _ fs => fs

def Field.info : Field → FieldInfo
  | .mk i _ => i

def Field.relatedModel : Field → Option Model
  | .mk _ m => m

/-- The name-sets read from `source.query`: the keys of its `annotations`
and `extra` dicts. -/
structure Query where
  annotationKeys : List String
  extraKeys : List String

/-- Add a name to the name set; Python uses a `set`, modelled as an
insertion-ordered duplicate-free list. -/
def gafnAddName (names : List String) (s : String) : List String :=
  if s ∈ names then names else names ++ [s]

/-- One iteration of the field loop of `get_all_field_names`. -/
def gafnStep (meta : Model) (names : List String) (f : Field) : List String :=
  if f.info.isRelation && f.info.manyToOne && f.relatedModel.isNone then names
  else if f.info.fieldModelId ≠ meta.modelId ∧ f.info.fieldModelConcreteId = meta.concreteId then
    names
  else
    let names := gafnAddName names f.info.name
    match f.info.attname with
    | some a => gafnAddName names a
    | Option.none => names

/-- `get_all_field_names(meta)` (the Django 1.9.8 helper vendored by the
module). -/
def get_all_field_names (meta : Model) : List String :=
  meta.fields.foldl (gafnStep meta) []

/-- `meta.get_field(name)`, modelled as a search among the model's fields by
`name` or `attname`. -/
def getField (meta : Model) (s : String) : Option Field :=
  meta.fields.find? (fun f => f.info.name == s || f.info.attname == some s)

/-- The environment resolving a `QuerySet` id to the `source.model` and
`source.query` attributes read by the validator. -/
structure Env where
  model : Nat → Model
  query : Nat → Query

/-- The message of the `APIInputError` raised for an unresolvable leading
segment: `"Field %r does not exist. Valid lookups are %s."`. -/
def fieldLookupErrMsg (s : String) (names : List String) : String :=
  "Field '" ++ s ++ "' does not exist. Valid lookups are " ++
    String.intercalate ", " names ++ "."

/-- The recursive core of `_validate_field_lookup_term`, on the list of
segments of the term.  The source splits the term on `'__'` and rejoins the
tail for its recursive call; by `dunderJoin_pySplitDunder` re-splitting the
rejoined tail gives back the tail, so the embedding recurses on the segment
list directly.  A `none` model is Python `None` (reached through
`field.related_model` of a direct non-relation field); its `_meta` access
raises `AttributeError` — but only after the annotation/extra check, which
the source performs first on every recursive call. -/
def vfltSegs (q : Query) : Option Model → List String → Except PyErr String
  | om, segs =>
    if dunderJoin segs ∈ q.annotationKeys ∨ dunderJoin segs ∈ q.extraKeys then
      .ok (dunderJoin segs)
    else
      match om with
      | Option.none => .error (.attributeError "'NoneType' object has no attribute '_meta'")
      | some meta =>
        match segs with
        | [] => .error (.attributeError "'NoneType' object has no attribute 'split'")
        | s :: rest =>
          let names := get_all_field_names meta
          if s ∉ names then
            .error (.apiInputError (fieldLookupErrMsg s names))
          else
            match getField meta s with
            | Option.none => .error (.attributeError "FieldDoesNotExist")
            | some f =>
              match rest with
              | [] => .ok f.info.verboseName
              | _ :: _ =>
                vfltSegs q
                  (if ¬ f.info.autoCreated ∨ f.info.concrete then f.relatedModel else some meta)
                  rest

/-- The body of `vfltSegs` on a nonempty segment list `s :: rest` once the
annotation/extra check has failed (the part of `_validate_field_lookup_term`
below the annotation check, for model `m`). -/
def vfltStep (q : Query) (m : Model) (s : String) (rest : List String) : Except PyErr String :=
  if s ∉ get_all_field_names m then
    .error (.apiInputError (fieldLookupErrMsg s (get_all_field_names m)))
  else
    match getField m s with
    | Option.none => .error (.attributeError "FieldDoesNotExist")
    | some f =>
      match rest with
      | [] => .ok f.info.verboseName
      | _ :: _ =>
        vfltSegs q (if ¬ f.info.autoCreated ∨ f.info.concrete then f.relatedModel else some m)
          rest

/-- `_validate_field_lookup_term(model, term, query)`.  A non-string term is
never among the (string) annotation/extra keys, and its `.split` access
raises `AttributeError`. -/
def validate_field_lookup_term (om : Option Model) (term : PyVal) (q : Query) :
    Except PyErr String :=
  match term with
  | .str s => vfltSegs q om (pySplitDunder s)
  | v => .error (.attributeError ("'" ++ pyTypeName v ++ "' object has no attribute 'split'"))

/-- `_validate_source(source)`: must be a `QuerySet`; returns it (here:
the id identifying the returned queryset, i.e. `.qset i`). -/
def validate_source (source : PyVal) : Except PyErr Nat :=
  match source with
  | .qset i => .ok i
  | v =>
    .error (.apiInputError ("'source' must be a QuerySet. Got " ++ pyStr v ++
      " of type " ++ pyType v ++ " instead."))

/-- `_validate_func(func)`: must be a django `Aggregate` instance. -/
def validate_func (f : PyVal) : Except PyErr Unit :=
  match f with
  | .agg _ => .ok ()
  | v =>
    .error (.apiInputError ("'func' must an instance of django Aggregate. Got " ++ pyStr v ++
      " of type " ++ pyType v ++ " instead"))

/-- The shared loop of `_clean_categories` / `_validate_legend_by`:
`field_aliases[c] = _validate_field_lookup_term(source.model, c, source.query)`
over a list of terms, for queryset id `i`. -/
def foldFieldAliases (env : Env) (i : Nat) : PyDict → List PyVal → Except PyErr PyDict
  | fa, [] => .ok fa
  | fa, c :: cs => do
    let v ← validate_field_lookup_term (some (env.model i)) c (env.query i)
    foldFieldAliases env i (dinsert fa c (.str v)) cs

/-- `_clean_categories(categories, source)`, with `source` the (already
validated) queryset id `i`. -/
def clean_categories (env : Env) (categories : PyVal) (i : Nat) :
    Except PyErr (PyVal × PyDict) :=
  match categories with
  | .str c => do
    let fa ← foldFieldAliases env i [] [.str c]
    .ok (.list [.str c], fa)
  | .tuple cs =>
    if cs.isEmpty then
      .error (apiErrFmt1 (fun m => "'categories' tuple or list must contain at " ++
        "least one valid model field. Got " ++ m ++ ".") (.tuple cs))
    else do
      let fa ← foldFieldAliases env i [] cs
      .ok (.tuple cs, fa)
  | .list cs =>
    if cs.isEmpty then
      .error (apiErrFmt1 (fun m => "'categories' tuple or list must contain at " ++
        "least one valid model field. Got " ++ m ++ ".") (.list cs))
    else do
      let fa ← foldFieldAliases env i [] cs
      .ok (.list cs, fa)
  | v =>
    .error (.apiInputError ("'categories' must be one of the following " ++
      "types: basestring, tuple or list. Got " ++ pyStr v ++ " of type " ++
      pyType v ++ " instead."))

/-- `_validate_legend_by(legend_by, source)`. -/
def validate_legend_by (env : Env) (legendBy : PyVal) (i : Nat) :
    Except PyErr (PyVal × PyDict) :=
  match (if pyTruthy legendBy then legendBy else .list []) with
  | .list ls => do
    let fa ← foldFieldAliases env i [] ls
    .ok (.list ls, fa)
  | _ => .error (.apiInputError "'legend_by' must be a list")

/-- `_validate_top_n_per_cat(top_n_per_cat)`: must be an `int` (a Python
`bool` is a subclass of `int`). -/
def validate_top_n_per_cat (v : PyVal) : Except PyErr Unit :=
  match v with
  | .int _ => .ok ()
  | .bool _ => .ok ()
  | _ =>
    .error (.apiInputError ("'top_n_per_cat' must be an int. Got " ++ pyStr v ++
      " of type " ++ pyType v ++ " instead."))

/-- One pass of `d.update(iterable)`: each element must be a sequence of
exactly two items (a 2-element list or tuple, a 2-character string, or —
since iterating a dict yields its keys — a 2-entry dict); a sequence of
another length raises `ValueError` and a non-iterable element raises
`TypeError`, as in CPython. -/
def dictUpdatePairs : PyDict → List PyVal → Except PyErr PyDict
  | d, [] => .ok d
  | d, e :: es =>
    match e with
    | .list [k, v] => dictUpdatePairs (dinsert d k v) es
    | .tuple [k, v] => dictUpdatePairs (dinsert d k v) es
    | .str s =>
      match s.data with
      | [c1, c2] =>
        dictUpdatePairs (dinsert d (.str ⟨[c1]⟩) (.str ⟨[c2]⟩)) es
      | _ =>
        .error (.valueError
          "dictionary update sequence element has wrong length")
    | .dict ed =>
      match ed with
      | [(k1, _), (k2, _)] => dictUpdatePairs (dinsert d k1 k2) es
      | _ =>
        .error (.valueError
          "dictionary update sequence element has wrong length")
    | .list _ =>
      .error (.valueError "dictionary update sequence element has wrong length")
    | .tuple _ =>
      .error (.valueError "dictionary update sequence element has wrong length")
    | _ =>
      .error (.typeError
        "cannot convert dictionary update sequence element to a sequence")

/-- `d.update(v)` for an arbitrary argument: a dict merges; a list or tuple
is consumed as an iterable of key/value pairs; a string iterates its
characters (so only the empty string succeeds, each character being a
length-1 sequence); anything else is not iterable. -/
def dictUpdateArg (d : PyDict) (v : PyVal) : Except PyErr PyDict :=
  match v with
  | .dict es => .ok (dupdate d es)
  | .list xs => dictUpdatePairs d xs
  | .tuple xs => dictUpdatePairs d xs
  | .str s =>
    if s = "" then .ok d
    else .error (.valueError "dictionary update sequence element has wrong length")
  | v => .error (.typeError ("'" ++ pyTypeName v ++ "' object is not iterable"))

/-- `_merge_field_aliases(fa_actual, fa_cat, fa_lgby)`: a copy of `fa_lgby`
updated with `fa_cat` (both dicts built by the validator) and then with the
user-supplied `fa_actual` via `dict.update` semantics. -/
def merge_field_aliases (faActual : PyVal) (faCat faLgby : PyDict) : Except PyErr PyDict :=
  dictUpdateArg (dupdate faLgby faCat) faActual

/-! ## `_convert_pdps_to_dict` and `clean_pdps` -/

/-- Process one `(tk, tv)` item of a PivotDataPool `terms` dict; returns the
series key and its fully validated options record. -/
def pdpsProcessTerm (env : Env) (options : PyDict) (tk tv : PyVal) :
    Except PyErr (PyVal × PyDict) := do
  let tvd ← match tv with
    | .agg i => Except.ok ([((.str "func" : PyVal), (.agg i : PyVal))] : PyDict)
    | .dict es => Except.ok es
    | v =>
      Except.error (apiErrFmt1 (fun m => "Expecting a dict or django Aggregate " ++
        "in place of: " ++ m) v)
  let opts := dupdate options tvd
  if ¬ dmem opts (.str "source") then
    Except.error (.apiInputError (pyStr (.dict opts) ++ " is missing the 'source' key."))
  else if ¬ dmem opts (.str "func") then
    Except.error (.apiInputError (pyStr (.dict opts) ++ " is missing the 'func' key."))
  else if ¬ dmem opts (.str "categories") then
    Except.error (.apiInputError (pyStr (.dict opts) ++ " is missing the 'categories' key."))
  else do
    let i ← validate_source ((dlookup opts (.str "source")).getD .none)
    let opts := dinsert opts (.str "source") (.qset i)
    let _ ← validate_func ((dlookup opts (.str "func")).getD .none)
    let (cats, faCat) ← clean_categories env ((dlookup opts (.str "categories")).getD .none) i
    let opts := dinsert opts (.str "categories") cats
    let (lg, faLgby) ← match dlookup opts (.str "legend_by") with
      | some lgv => validate_legend_by env lgv i
      | Option.none => Except.ok ((.tuple [] : PyVal), ([] : PyDict))
    let opts := dinsert opts (.str "legend_by") lg
    let opts ← match dlookup opts (.str "top_n_per_cat") with
      | some tn => do
          let _ ← validate_top_n_per_cat tn
          Except.ok opts
      | Option.none => Except.ok (dinsert opts (.str "top_n_per_cat") (.int 0))
    let faActual := (dlookup opts (.str "field_aliases")).getD (.dict [])
    let merged ← merge_field_aliases faActual faCat faLgby
    Except.ok (tk, dinsert opts (.str "field_aliases") (.dict merged))

def pdpsFoldTerms (env : Env) (options : PyDict) :
    PyDict → List (PyVal × PyVal) → Except PyErr PyDict
  | acc, [] => .ok acc
  | acc, (tk, tv) :: items => do
    let (k, opts) ← pdpsProcessTerm env options tk tv
    pdpsFoldTerms env options (dinsert acc k (.dict opts)) items

/-- The shape checks performed on one element `sd` of the PivotDataPool
series list before its `terms` loop runs: `sd` must be a dict (a non-dict
has no `.keys()`, so Python raises `AttributeError`) with an `options` dict
and a nonempty `terms` dict.  Returns the options template and the term
items. -/
def pdpsSdChecks (sd : PyVal) : Except PyErr (PyDict × List (PyVal × PyVal)) :=
  match sd with
  | .dict sdd =>
    if ¬ dmem sdd (.str "options") then
      .error (.apiInputError (pyStr sd ++ " is missing the 'options' key."))
    else if ¬ dmem sdd (.str "terms") then
      .error (.apiInputError (pyStr sd ++ " is missing the 'terms' key."))
    else
      match (dlookup sdd (.str "options")).getD .none with
      | .dict od =>
        match (dlookup sdd (.str "terms")).getD .none with
        | .dict td =>
          if td.isEmpty then .error (.apiInputError "'terms' cannot be empty.")
          else .ok (od, td)
        | tv => .error (apiErrFmt1 (fun m => "Expecting a dict in place of: " ++ m) tv)
      | ov => .error (apiErrFmt1 (fun m => "Expecting a dict in place of: " ++ m) ov)
  | v => .error (.attributeError ("'" ++ pyTypeName v ++ "' object has no attribute 'keys'"))

/-- Process one element `sd` of the PivotDataPool series list. -/
def pdpsProcessSd (env : Env) (acc : PyDict) (sd : PyVal) : Except PyErr PyDict := do
  let (od, td) ← pdpsSdChecks sd
  pdpsFoldTerms env od acc td

def pdpsFoldSds (env : Env) : PyDict → List PyVal → Except PyErr PyDict
  | acc, [] => .ok acc
  | acc, sd :: sds => do
    let acc' ← pdpsProcessSd env acc sd
    pdpsFoldSds env acc' sds

/-- `_convert_pdps_to_dict(series_list)`. -/
def convert_pdps_to_dict (env : Env) (seriesList : List PyVal) : Except PyErr PyDict :=
  pdpsFoldSds env [] seriesList

/-- `clean_pdps(series)`. -/
def clean_pdps (env : Env) (series : PyVal) : Except PyErr PyVal :=
  if ¬ pyTruthy series then .error (.apiInputError "'series' cannot be empty.")
  else
    match series with
    | .list sl => do
      let d ← convert_pdps_to_dict env sl
      .ok (.dict d)
    | v => .error (apiErrFmt1 (fun m => "Expecting a list in place of: " ++ m) v)

/-! ## `_convert_dps_to_dict` and `clean_dps`

`_convert_dps_to_dict` mutates its argument: for a dict term it executes
`del term['_new_name']` on the caller's term dict, while `options` is
deep-copied.  The embedding passes this state explicitly: the converter
returns, next to the series dict, the final state of the caller's
`series_list` argument. -/

/-- The validations shared by both term shapes of `_convert_dps_to_dict`
(everything below the `series_dict[_new_name] = ...` assignments; the stored
record aliases `sd_term`, so the record held by the series dict when the
function returns is the fully processed one). -/
def dpsFinishTerm (env : Env) (newName : PyVal) (opts0 : PyDict) : Except PyErr PyDict :=
  if ¬ dmem opts0 (.str "source") then
    Except.error (.apiInputError (pyStr (.dict opts0) ++ " is missing the 'source' key."))
  else do
    let i ← validate_source ((dlookup opts0 (.str "source")).getD .none)
    let opts1 := dinsert opts0 (.str "source") (.qset i)
    let opts2 := dsetdefault opts1 (.str "field") newName
    let fieldv := (dlookup opts2 (.str "field")).getD .none
    let fa ← validate_field_lookup_term (some (env.model i)) fieldv (env.query i)
    let fa' := if newName ≠ fieldv then newName else .str fa
    Except.ok (dsetdefault opts2 (.str "field_alias") fa')

/-- Process one term of a DataPool `terms` list: returns the series key, the
record stored under it, and the final state of the term (a dict term loses
its `_new_name` key). -/
def dpsProcessTerm (env : Env) (options : PyDict) (t : PyVal) :
    Except PyErr (PyVal × PyDict × PyVal) :=
  match t with
  | .str s => do
    let r ← dpsFinishTerm env (.str s) options
    Except.ok (.str s, r, .str s)
  | .dict td =>
    match dlookup td (.str "_new_name") with
    | Option.none => .error (.keyError (.str "_new_name"))
    | some nn => do
      let td' := ddel td (.str "_new_name")
      let r ← dpsFinishTerm env nn (dupdate options td')
      Except.ok (nn, r, .dict td')
  | v => .error (.apiInputError ("Expecting a basestring or dict in place of: " ++ pyStr v))

def dpsFoldTerms (env : Env) (options : PyDict) :
    PyDict → List PyVal → Except PyErr (PyDict × List PyVal)
  | acc, [] => .ok (acc, [])
  | acc, t :: ts => do
    let (n, r, t') ← dpsProcessTerm env options t
    let (d, ts') ← dpsFoldTerms env options (dinsert acc n (.dict r)) ts
    .ok (d, t' :: ts')

/-- The shape checks performed on one element `sd` of the DataPool series
list before its `terms` loop runs: `sd` must be a dict (a non-dict has no
`.keys()`, so Python raises `AttributeError`) with an `options` dict and a
nonempty `terms` list.  Returns the element's entries, the options template
and the terms. -/
def dpsSdChecks (sd : PyVal) : Except PyErr (PyDict × PyDict × List PyVal) :=
  match sd with
  | .dict sdd =>
    if ¬ dmem sdd (.str "options") then
      .error (.apiInputError (pyStr sd ++ " is missing the 'options' key."))
    else if ¬ dmem sdd (.str "terms") then
      .error (.apiInputError (pyStr sd ++ " is missing the 'terms' key."))
    else
      match (dlookup sdd (.str "options")).getD .none with
      | .dict od =>
        match (dlookup sdd (.str "terms")).getD .none with
        | .list ts =>
          if ts.isEmpty then .error (.apiInputError "'terms' cannot be empty.")
          else .ok (sdd, od, ts)
        | tv => .error (apiErrFmt1 (fun m => "Expecting a list in place of: " ++ m) tv)
      | ov => .error (apiErrFmt1 (fun m => "Expecting a dict in place of: " ++ m) ov)
  | v => .error (.attributeError ("'" ++ pyTypeName v ++ "' object has no attribute 'keys'"))

/-- Process one element `sd` of the DataPool series list; the second
component of the result is the element's final state (its terms list holds
the mutated terms). -/
def dpsProcessSd (env : Env) (acc : PyDict) (sd : PyVal) : Except PyErr (PyDict × PyVal) := do
  let (sdd, od, ts) ← dpsSdChecks sd
  let (acc', ts') ← dpsFoldTerms env od acc ts
  Except.ok (acc', .dict (dinsert sdd (.str "terms") (.list ts')))

def dpsFoldSds (env : Env) : PyDict → List PyVal → Except PyErr (PyDict × List PyVal)
  | acc, [] => .ok (acc, [])
  | acc, sd :: sds => do
    let (acc', sd') ← dpsProcessSd env acc sd
    let (d, sds') ← dpsFoldSds env acc' sds
    .ok (d, sd' :: sds')

/-- `_convert_dps_to_dict(series_list)`; the second component is the final
state of the caller's `series_list` argument. -/
def convert_dps_to_dict (env : Env) (seriesList : List PyVal) :
    Except PyErr (PyDict × List PyVal) :=
  dpsFoldSds env [] seriesList

/-- `clean_dps(series)`; the second component is the final state of the
caller's `series` argument. -/
def clean_dps (env : Env) (series : PyVal) : Except PyErr (PyVal × PyVal) :=
  if ¬ pyTruthy series then .error (.apiInputError "'series' cannot be empty.")
  else
    match series with
    | .list sl => do
      let (d, sl') ← convert_dps_to_dict env sl
      .ok (.dict d, .list sl')
    | v => .error (apiErrFmt1 (fun m => "Expecting a list in place of: " ++ m) v)

/-! ## `_convert_pcso_to_dict`, `clean_pcso`, `_convert_cso_to_dict`, `clean_cso` -/

/-- The datasource argument `ds` of `clean_pcso` / `clean_cso`; the module
only reads its `series` dict. -/
structure DS where
  series : PyDict

/-- `v[k]` for an arbitrary value: a dict lookup (`KeyError` when absent);
any other receiver raises `TypeError`. -/
def pySubscript (v : PyVal) (k : PyVal) : Except PyErr PyVal :=
  match v with
  | .dict es =>
    match dlookup es k with
    | some x => .ok x
    | Option.none => .error (.keyError k)
  | other => .error (.typeError ("'" ++ pyTypeName other ++ "' object is not subscriptable"))

/-- Build an `APIInputError` whose message interpolates
`', '.join(ds.series.keys())`; joining non-string keys raises the
`TypeError` first. -/
def errWithKeys (mk : String → String) (keys : List PyVal) : PyErr :=
  match pyJoinComma keys with
  | .ok j => .apiInputError (mk j)
  | .error e => e

/-- `stod['options']` / `stod['terms']` wrapped in
`try: ... except KeyError: raise APIInputError(...)`. -/
def trySubscriptKey (stod : PyVal) (key : String) : Except PyErr PyVal :=
  match pySubscript stod (.str key) with
  | .ok v => .ok v
  | .error (.keyError _) =>
    .error (.apiInputError (pyStr stod ++ " is missing the '" ++ key ++ "' key."))
  | .error e => .error e

/-- The inner loop of `_convert_pcso_to_dict` over the items of a dict term. -/
def pcsoFoldTermDict (od : PyDict) : PyDict → List (PyVal × PyVal) → Except PyErr PyDict
  | acc, [] => .ok acc
  | acc, (tk, tv) :: items =>
    match tv with
    | .dict tves => pcsoFoldTermDict od (dinsert acc tk (.dict (dupdate od tves))) items
    | v => .error (apiErrFmt1 (fun m => "Expecting a dict in place of: " ++ m) v)

/-- The loop of `_convert_pcso_to_dict` over a `terms` list.  A term that is
neither a string nor a dict is silently skipped (the source loop has no
`else` branch). -/
def pcsoFoldTerms (od : PyDict) : PyDict → List PyVal → Except PyErr PyDict
  | acc, [] => .ok acc
  | acc, t :: ts =>
    match t with
    | .str s => pcsoFoldTerms od (dinsert acc (.str s) (.dict od)) ts
    | .dict td => do
      let acc' ← pcsoFoldTermDict od acc td
      pcsoFoldTerms od acc' ts
    | _ => pcsoFoldTerms od acc ts

/-- Process one element `stod` of the PivotChart series-options list. -/
def pcsoProcessSd (acc : PyDict) (stod : PyVal) : Except PyErr PyDict := do
  let options ← trySubscriptKey stod "options"
  match options with
  | .dict od => do
    let terms ← trySubscriptKey stod "terms"
    match terms with
    | .list ts => pcsoFoldTerms od acc ts
    | tv => Except.error (apiErrFmt1 (fun m => "Expecting a list in place of: " ++ m) tv)
  | ov => Except.error (apiErrFmt1 (fun m => "Expecting a dict in place of: " ++ m) ov)

def pcsoFoldSds : PyDict → List PyVal → Except PyErr PyDict
  | acc, [] => .ok acc
  | acc, stod :: rest => do
    let acc' ← pcsoProcessSd acc stod
    pcsoFoldSds acc' rest

/-- `_convert_pcso_to_dict(series_options)`. -/
def convert_pcso_to_dict (seriesOptionsList : List PyVal) : Except PyErr PyDict :=
  pcsoFoldSds [] seriesOptionsList

/-- The per-entry checks of the dict branch of `clean_pcso`. -/
def pcsoCheckEntries (ds : DS) : List (PyVal × PyVal) → Except PyErr Unit
  | [] => .ok ()
  | (sok, sod) :: rest =>
    if ¬ dmem ds.series sok then
      .error (errWithKeys
        (fun j => "All the series terms must be present in the series dict of " ++
          "the datasource. Got " ++ pyStr sok ++ ". Allowed values are: " ++ j)
        (dkeys ds.series))
    else
      match sod with
      | .dict _ => pcsoCheckEntries ds rest
      | v =>
        .error (.apiInputError ("All the series options must be of the " ++
          "type dict. Got " ++ pyStr v ++ " of type " ++ pyType v ++ " instead."))

/-- `clean_pcso(series_options, ds)`.  A list input is first converted to
the canonical dict and then re-validated through the dict branch. -/
def clean_pcso (seriesOptions : PyVal) (ds : DS) : Except PyErr PyVal :=
  match seriesOptions with
  | .dict es => do
    let _ ← pcsoCheckEntries ds es
    Except.ok (.dict es)
  | .list sl => do
    let d ← convert_pcso_to_dict sl
    let _ ← pcsoCheckEntries ds d
    Except.ok (.dict d)
  | v => .error (apiErrFmt1 (fun m => "Expecting a dict or list in place of: " ++ m ++ ".") v)

/-- The loop of `_convert_cso_to_dict` over the y-terms of one x-axis term.
For a dict y-term, `opts.update(list(yterm.values())[0])` indexes the first
value: an empty dict raises `IndexError`, and the update itself follows
`dict.update` semantics on the first value. -/
def csoFoldYTerms (od : PyDict) (tk : PyVal) : PyDict → List PyVal → Except PyErr PyDict
  | acc, [] => .ok acc
  | acc, yterm :: rest =>
    match yterm with
    | .str ys =>
      csoFoldYTerms od tk
        (dinsert acc (.str ys) (.dict (dinsert od (.str "_x_axis_term") tk))) rest
    | .dict yd =>
      match yd with
      | [] => .error (.indexError "list index out of range")
      | (yk, yv) :: _ => do
        let upd ← dictUpdateArg od yv
        csoFoldYTerms od tk
          (dinsert acc yk (.dict (dinsert upd (.str "_x_axis_term") tk))) rest
    | v =>
      .error (apiErrFmt1 (fun m => "Expecting a basestring or dict in place of: " ++ m ++ ".") v)

def csoFoldTermItems (od : PyDict) : PyDict → List (PyVal × PyVal) → Except PyErr PyDict
  | acc, [] => .ok acc
  | acc, (tk, td) :: items =>
    match td with
    | .list yts => do
      let acc' ← csoFoldYTerms od tk acc yts
      csoFoldTermItems od acc' items
    | v => .error (apiErrFmt1 (fun m => "Expecting a list instead of: " ++ m) v)

/-- Process one element `stod` of the Chart series-options list. -/
def csoProcessSd (acc : PyDict) (stod : PyVal) : Except PyErr PyDict := do
  let options ← trySubscriptKey stod "options"
  match options with
  | .dict od => do
    let terms ← trySubscriptKey stod "terms"
    match terms with
    | .dict tds =>
      if tds.isEmpty then Except.error (.apiInputError "'terms' dict cannot be empty.")
      else csoFoldTermItems od acc tds
    | tv => Except.error (apiErrFmt1 (fun m => "Expecting a dict in place of: " ++ m ++ ".") tv)
  | ov => Except.error (apiErrFmt1 (fun m => "Expecting a dict in place of: " ++ m) ov)

def csoFoldSds : PyDict → List PyVal → Except PyErr PyDict
  | acc, [] => .ok acc
  | acc, stod :: rest => do
    let acc' ← csoProcessSd acc stod
    csoFoldSds acc' rest

/-- `_convert_cso_to_dict(series_options)`. -/
def convert_cso_to_dict (seriesOptionsList : List PyVal) : Except PyErr PyDict :=
  csoFoldSds [] seriesOptionsList

/-- The per-entry checks of the dict branch of `clean_cso`: the entry key
must name a datasource series, the entry must be a dict carrying an
`_x_axis_term` that names a datasource series, and the two series' `_data`
must be equal. -/
def csoCheckEntries (ds : DS) : List (PyVal × PyVal) → Except PyErr Unit
  | [] => .ok ()
  | (sok, sod) :: rest =>
    if ¬ dmem ds.series sok then
      .error (errWithKeys
        (fun j => pyStr sok ++ " is not one of the keys of the datasource " ++
          "series. Allowed values are: " ++ j)
        (dkeys ds.series))
    else
      match sod with
      | .dict sodEs =>
        match dlookup sodEs (.str "_x_axis_term") with
        | Option.none =>
          .error (.apiInputError ("Expecting a '_x_axis_term' for " ++ pyStr sod ++ "."))
        | some xv =>
          if ¬ dmem ds.series xv then
            .error (errWithKeys
              (fun j => pyStr xv ++ " is not one of the keys of the datasource " ++
                "series. Allowed values are: " ++ j)
              (dkeys ds.series))
          else do
            let a ← pySubscript ((dlookup ds.series sok).getD .none) (.str "_data")
            let b ← pySubscript ((dlookup ds.series xv).getD .none) (.str "_data")
            if a ≠ b then
              Except.error (.apiInputError (pyStr sok ++ " and " ++ pyStr xv ++
                " do not belong to the same table."))
            else csoCheckEntries ds rest
      | v =>
        .error (.apiInputError (pyStr v ++ " is of type: " ++ pyType v ++
          ". Expecting a dict."))

/-- `clean_cso(series_options, ds)`.  A list input is first converted to the
canonical dict and then re-validated through the dict branch. -/
def clean_cso (seriesOptions : PyVal) (ds : DS) : Except PyErr PyVal :=
  match seriesOptions with
  | .dict es => do
    let _ ← csoCheckEntries ds es
    Except.ok (.dict es)
  | .list sl => do
    let d ← convert_cso_to_dict sl
    let _ ← csoCheckEntries ds d
    Except.ok (.dict d)
  | v =>
    .error (.apiInputError ("'series_options' must either be a dict or a " ++
      "list. Got " ++ pyStr v ++ " of type " ++ pyType v ++ " instead."))

/-! ## `clean_sortf_mapf_mts` and `clean_x_sortf_mapf_mts` -/

/-- `clean_sortf_mapf_mts(sortf_mapf_mts)`. -/
def clean_sortf_mapf_mts (v : PyVal) : Except PyErr PyVal :=
  if ¬ pyTruthy v then .ok (.tuple [.none, .none, .bool false])
  else
    match v with
    | .tuple [sortf, mapf, mts] =>
      if pyTruthy sortf && !pyCallable sortf then
        .error (.apiInputError "sortf must be callable or None.")
      else if pyTruthy mapf && !pyCallable mapf then
        .error (.apiInputError "mapf must be callable or None.")
      else .ok (.tuple [sortf, mapf, .bool (pyTruthy mts)])
    | .tuple xs =>
      .error (apiErrFmt1R (fun m => m ++ " must have exactly three elements.") (.tuple xs))
    | _ => .error (.apiInputError "sortf_mapf_mts must be a tuple!")

def cleanXFold : List PyVal → Except PyErr (List PyVal)
  | [] => .ok []
  | t :: ts => do
    let c ← clean_sortf_mapf_mts t
    let cs ← cleanXFold ts
    .ok (c :: cs)

/-- `clean_x_sortf_mapf_mts(x_sortf_mapf_mts)`: a falsy input yields the
one-element default list, a single tuple is wrapped into a one-element list,
and a list is cleaned element by element. -/
def clean_x_sortf_mapf_mts (v : PyVal) : Except PyErr PyVal :=
  if ¬ pyTruthy v then .ok (.list [.tuple [.none, .none, .bool false]])
  else
    match v with
    | .tuple xs => do
      let cs ← cleanXFold [.tuple xs]
      Except.ok (.list cs)
    | .list xs => do
      let cs ← cleanXFold xs
      Except.ok (.list cs)
    | _ => .error (.apiInputError "x_sortf_mapf_mts must be a list of tuples!")

/-- The final state of one term of a DataPool `terms` list after
`_convert_dps_to_dict` has processed it: a dict term loses its `_new_name`
key (mutated in the caller's structure), any other term is untouched. -/
def termFinalState : PyVal → PyVal
  | .dict td => .dict (ddel td (.str "_new_name"))
  | t => t

/-- The final state of one element of the DataPool series list: its `terms`
list holds the mutated terms; everything else (in particular the `options`
template, which is deep-copied before mutation) is untouched. -/
def sdFinalState : PyVal → PyVal
  | .dict sdd =>
    match (dlookup sdd (.str "terms")).getD .none with
    | .list ts => .dict (dinsert sdd (.str "terms") (.list (ts.map termFinalState)))
    | _ => .dict sdd
  | v => v

/-! ### Which record a series name receives (for the last-write-wins law)

`dpsTermWrite env o t k` is the fully-merged options record that term `t`
stores under series name `k` (if `t` resolves to `k` and processes
successfully).  `dpsTermsWrite` / `dpsSdWrite` / `dpsSdsWrite` return the
record of the *last* term / series-list entry resolving to `k` — the value
the converter's dict is claimed to end up holding. -/

def dpsTermWrite (env : Env) (o : PyDict) (t : PyVal) (k : PyVal) : Option PyDict :=
  match dpsProcessTerm env o t with
  | .ok (n, r, _) => if n = k then some r else Option.none
  | .error _ => Option.none

def dpsTermsWrite (env : Env) (o : PyDict) (k : PyVal) : List PyVal → Option PyDict
  | [] => Option.none
  | t :: ts =>
    match dpsTermsWrite env o k ts with
    | some r => some r
    | Option.none => dpsTermWrite env o t k

def dpsSdWrite (env : Env) (k : PyVal) (sd : PyVal) : Option PyDict :=
  match dpsSdChecks sd with
  | .ok (_, od, ts) => dpsTermsWrite env od k ts
  | .error _ => Option.none

def dpsSdsWrite (env : Env) (k : PyVal) : List PyVal → Option PyDict
  | [] => Option.none
  | sd :: sds =>
    match dpsSdsWrite env k sds with
    | some r => some r
    | Option.none => dpsSdWrite env k sd

def pdpsItemWrite (env : Env) (o : PyDict) (tk tv : PyVal) (k : PyVal) : Option PyDict :=
  match pdpsProcessTerm env o tk tv with
  | .ok (n, r) => if n = k then some r else Option.none
  | .error _ => Option.none

def pdpsItemsWrite (env : Env) (o : PyDict) (k : PyVal) :
    List (PyVal × PyVal) → Option PyDict
  | [] => Option.none
  | (tk, tv) :: items =>
    match pdpsItemsWrite env o k items with
    | some r => some r
    | Option.none => pdpsItemWrite env o tk tv k

def pdpsSdWrite (env : Env) (k : PyVal) (sd : PyVal) : Option PyDict :=
  match pdpsSdChecks sd with
  | .ok (od, td) => pdpsItemsWrite env od k td
  | .error _ => Option.none

def pdpsSdsWrite (env : Env) (k : PyVal) : List PyVal → Option PyDict
  | [] => Option.none
  | sd :: sds =>
    match pdpsSdsWrite env k sds with
    | some r => some r
    | Option.none => pdpsSdWrite env k sd

/-- The success condition of the Field-Lookup Validator as the spec states
it: a term resolves when it is among the query's annotation/extra names
(yielding the term itself), or when its leading segment is among the model's
reachable field names and the remaining segments resolve on the model the
matched field leads to (a direct/concrete field descends into its related
model, a reverse/implicit relation stays on the current model), the final
field yielding its display label.  The negated annotation conditions mirror
the priority of the annotation check at each recursion level. -/
inductive SpecResolves (q : Query) : Option Model → List String → String → Prop where
  | anno (om : Option Model) (segs : List String)
      (h : dunderJoin segs ∈ q.annotationKeys ∨ dunderJoin segs ∈ q.extraKeys) :
      SpecResolves q om segs (dunderJoin segs)
  | field (m : Model) (s : String) (f : Field)
      (hnot : ¬ (dunderJoin [s] ∈ q.annotationKeys ∨ dunderJoin [s] ∈ q.extraKeys))
      (hmem : s ∈ get_all_field_names m) (hget : getField m s = some f) :
      SpecResolves q (some m) [s] f.info.verboseName
  | descend (m : Model) (s : String) (rest : List String) (f : Field) (lab : String)
      (hne : rest ≠ [])
      (hnot : ¬ (dunderJoin (s :: rest) ∈ q.annotationKeys ∨
        dunderJoin (s :: rest) ∈ q.extraKeys))
      (hmem : s ∈ get_all_field_names m) (hget : getField m s = some f)
      (hrec : SpecResolves q
        (if ¬ f.info.autoCreated ∨ f.info.concrete then f.relatedModel else some m) rest lab) :
      SpecResolves q (some m) (s :: rest) lab

/-! ## Concrete fixtures used by witnesses and counterexamples -/

/-- Fixture: the `id` field of the `Author` model. -/
def authorIdF : Field :=
  .mk ⟨"id", some "id", false, false, false, true, "ID", 1, 1⟩ Option.none

/-- Fixture: the `name` field of the `Author` model. -/
def authorNameF : Field :=
  .mk ⟨"name", some "name", false, false, false, true, "author name", 1, 1⟩ Option.none

/-- Fixture: an `Author` model with fields `id` and `name`. -/
def authorModel : Model := .mk 1 1 [authorIdF, authorNameF]

def bookIdF : Field :=
  .mk ⟨"id", some "id", false, false, false, true, "ID", 2, 2⟩ Option.none

def bookTitleF : Field :=
  .mk ⟨"title", some "title", false, false, false, true, "book title", 2, 2⟩ Option.none

def bookPriceF : Field :=
  .mk ⟨"price", some "price", false, false, false, true, "price", 2, 2⟩ Option.none

/-- Fixture: the `author` foreign key of the `Book` model (a direct concrete
relation into `authorModel`, with storage attribute `author_id`). -/
def bookAuthorF : Field :=
  .mk ⟨"author", some "author_id", true, true, false, true, "author", 2, 2⟩ (some authorModel)

/-- Fixture: a `Book` model with fields `id`, `title`, `price` and a foreign
key `author`. -/
def bookModel : Model := .mk 2 2 [bookIdF, bookTitleF, bookPriceF, bookAuthorF]

/-- Fixture environment: every queryset id resolves to the `Book` model with
an annotation-free query. -/
def env0 : Env where
  model := fun _ => bookModel
  query := fun _ => ⟨[], []⟩

/-- Fixture environment with an annotation `total` on the query. -/
def envAnno : Env where
  model := fun _ => bookModel
  query := fun _ => ⟨["total"], []⟩

/-- Fixture datasource for C5: series `a` and `b` share `_data`, series `c`
has different `_data`. -/
def dsFix : DS :=
  ⟨[(.str "a", .dict [(.str "_data", .int 1)]),
    (.str "b", .dict [(.str "_data", .int 1)]),
    (.str "c", .dict [(.str "_data", .int 2)])]⟩

/-- Fixture: a valid DataPool series list. -/
def dpsInput : PyVal :=
  .list [.dict [(.str "options", .dict [(.str "source", .qset 0)]),
                (.str "terms", .list [.str "price"])]]

/-- The canonical dict `clean_dps` produces from `dpsInput`. -/
def dpsOutput : PyVal :=
  .dict [(.str "price", .dict [(.str "source", .qset 0), (.str "field", .str "price"),
           (.str "field_alias", .str "price")])]

/-- Fixture: a valid PivotDataPool series list. -/
def pdpsInput : PyVal :=
  .list [.dict [(.str "options", .dict [(.str "source", .qset 0), (.str "func", .agg 7),
                  (.str "categories", .str "title")]),
                (.str "terms", .dict [(.str "avg_price", .agg 7)])]]

/-- The canonical dict `clean_pdps` produces from `pdpsInput`. -/
def pdpsOutput : PyVal :=
  .dict [(.str "avg_price", .dict [(.str "source", .qset 0), (.str "func", .agg 7),
           (.str "categories", .list [.str "title"]), (.str "legend_by", .tuple []),
           (.str "top_n_per_cat", .int 0),
           (.str "field_aliases", .dict [(.str "title", .str "book title")])])]

/-! ## General lemmas used by the claim proofs -/

theorem splitDunderChars_ne_nil (cs : List Char) : splitDunderChars cs ≠ [] := by
  induction cs using splitDunderChars.induct with
  | case1 => simp [splitDunderChars]
  | case2 c => simp [splitDunderChars]
  | case3 c1 c2 rest hd ih => simp [splitDunderChars, hd]
  | case4 c1 c2 rest hd ih =>
    rw [splitDunderChars, if_neg hd]
    cases hs : splitDunderChars (c2 :: rest) with
    | nil => exact absurd hs ih
    | cons seg segs => simp [consHead, hs]

theorem dunderJoinChars_consHead (c : Char) (l : List (List Char)) (h : l ≠ []) :
    dunderJoinChars (consHead c l) = c :: dunderJoinChars l := by
  match l with
  | [] => exact absurd rfl h
  | [s] => rfl
  | s :: s2 :: rest => rfl

theorem dunderJoinChars_splitDunderChars (cs : List Char) :
    dunderJoinChars (splitDunderChars cs) = cs := by
  induction cs using splitDunderChars.induct with
  | case1 => rfl
  | case2 c => rfl
  | case3 c1 c2 rest hd ih =>
    obtain ⟨h1, h2⟩ := hd
    subst h1; subst h2
    rw [splitDunderChars, if_pos ⟨rfl, rfl⟩]
    cases hs : splitDunderChars rest with
    | nil => exact absurd hs (splitDunderChars_ne_nil rest)
    | cons seg segs =>
      rw [hs] at ih
      cases segs with
      | nil => simp_all [dunderJoinChars]
      | cons seg2 segs2 => simp_all [dunderJoinChars]
  | case4 c1 c2 rest hd ih =>
    rw [splitDunderChars, if_neg hd,
        dunderJoinChars_consHead c1 _ (splitDunderChars_ne_nil _), ih]

theorem dunderJoin_map_mk (l : List (List Char)) :
    dunderJoin (l.map (fun cs => (⟨cs⟩ : String))) = ⟨dunderJoinChars l⟩ := by
  induction l with
  | nil => rfl
  | cons s rest ih =>
    cases rest with
    | nil => rfl
    | cons s2 rest2 =>
      simp only [List.map, dunderJoin, dunderJoinChars] at *
      rw [ih]
      apply String.ext
      simp [String.data_append]

/-- Rejoining the segments of a split recovers the original term. -/
theorem dunderJoin_pySplitDunder (s : String) : dunderJoin (pySplitDunder s) = s := by
  rw [pySplitDunder, dunderJoin_map_mk, dunderJoinChars_splitDunderChars]

theorem bindOk {α β : Type} (a : α) (f : α → Except PyErr β) :
    (Except.ok a : Except PyErr α) >>= f = f a := rfl

theorem bindErr {α β : Type} (e : PyErr) (f : α → Except PyErr β) :
    (Except.error e : Except PyErr α) >>= f = .error e := rfl

theorem pyTruthy_none : pyTruthy .none = false := rfl

theorem pyTruthy_list (xs : List PyVal) : pyTruthy (.list xs) = !xs.isEmpty := rfl

theorem pyTruthy_tuple (xs : List PyVal) : pyTruthy (.tuple xs) = !xs.isEmpty := rfl

theorem pyTruthy_dict (es : List (PyVal × PyVal)) : pyTruthy (.dict es) = !es.isEmpty := rfl

/-! ## C2 — round-tripping the canonical dict output -/

/-- C2 (counterexample): `clean_dps` / `clean_pdps` succeed on valid list
input, but feeding the canonical dict output back raises an `APIInputError`
instead of returning it unchanged — the functions only accept lists. -/
theorem C2_counterexample :
    clean_dps env0 dpsInput = .ok (dpsOutput, dpsInput) ∧
    clean_dps env0 dpsOutput =
      .error (.apiInputError ("Expecting a list in place of: " ++ pyStr dpsOutput)) ∧
    clean_pdps env0 pdpsInput = .ok pdpsOutput ∧
    clean_pdps env0 pdpsOutput =
      .error (.apiInputError ("Expecting a list in place of: " ++ pyStr pdpsOutput)) := by
  exact ⟨rfl, rfl, rfl, rfl⟩

/-- C2 (amended): the functions are not idempotent on their canonical dict
output: any nonempty dict input (in particular any canonical output) raises
the `"Expecting a list in place of: ..."` input error, because only list
inputs are accepted (an empty dict raises `"cannot be empty"`). -/
theorem C2_amended (env : Env) (es : List (PyVal × PyVal)) (h : es ≠ []) :
    clean_dps env (.dict es) =
      .error (.apiInputError ("Expecting a list in place of: " ++ pyStr (.dict es))) ∧
    clean_pdps env (.dict es) =
      .error (.apiInputError ("Expecting a list in place of: " ++ pyStr (.dict es))) := by
  have ht : pyTruthy (.dict es) = true := by
    rw [pyTruthy_dict]
    cases es with
    | nil => exact absurd rfl h
    | cons e es' => rfl
  exact ⟨by simp [clean_dps, apiErrFmt1, pyFmt1With, ht],
    by simp [clean_pdps, apiErrFmt1, pyFmt1With, ht]⟩

/-- C2 (witness for the amended theorem). -/
theorem C2_witness :
    clean_dps env0 dpsOutput =
      .error (.apiInputError ("Expecting a list in place of: " ++ pyStr dpsOutput)) :=
  (C2_amended env0 [(.str "price", .dict [(.str "source", .qset 0),
      (.str "field", .str "price"), (.str "field_alias", .str "price")])]
    (fun hh => List.noConfusion hh)).1

/-! ## C3 — which exception kinds escape `clean_dps` / `clean_pdps` -/

/-- C3 (counterexample): a dict term lacking `_new_name` makes `clean_dps`
raise `KeyError` (not `APIInputError`), and a non-dict series element makes
`clean_pdps` raise `AttributeError`. -/
theorem C3_counterexample :
    clean_dps env0 (.list [.dict [(.str "options", .dict [(.str "source", .qset 0)]),
        (.str "terms", .list [.dict [(.str "field", .str "price")]])]]) =
      .error (.keyError (.str "_new_name")) ∧
    clean_pdps env0 (.list [.str "oops"]) =
      .error (.attributeError "'str' object has no attribute 'keys'") := by
  exact ⟨rfl, rfl⟩

/-- C3 (amended): missing `options`/`terms` keys and wrong value types raise
`APIInputError` when the value spliced into the `"%s"` message is not a
tuple; a tuple value of length ≥ 2 in any of those positions makes the
message formatting itself raise `TypeError` instead; and two further
malformed-input families escape as interpreter exceptions: a series element
that is not a dict raises `AttributeError` (no `.keys()`), and a dict term
lacking `_new_name` raises `KeyError`.  (The wrong-term-type message of
`clean_dps` interpolates `str(term)`, a string, so it is an `APIInputError`
even for tuple terms.) -/
theorem C3_amended (env : Env) (v ov tv : PyVal) (sdd od td : PyDict)
    (rest ts xs : List PyVal) :
    ((∀ es, v ≠ .dict es) →
      clean_dps env (.list (v :: rest)) =
        .error (.attributeError ("'" ++ pyTypeName v ++ "' object has no attribute 'keys'")) ∧
      clean_pdps env (.list (v :: rest)) =
        .error (.attributeError ("'" ++ pyTypeName v ++ "' object has no attribute 'keys'"))) ∧
    (dmem sdd (.str "options") = false →
      clean_dps env (.list [.dict sdd]) =
        .error (.apiInputError (pyStr (.dict sdd) ++ " is missing the 'options' key.")) ∧
      clean_pdps env (.list [.dict sdd]) =
        .error (.apiInputError (pyStr (.dict sdd) ++ " is missing the 'options' key."))) ∧
    (dmem td (.str "_new_name") = false →
      clean_dps env (.list [.dict [(.str "options", .dict od),
          (.str "terms", .list (.dict td :: ts))]]) =
        .error (.keyError (.str "_new_name"))) ∧
    ((∀ s, v ≠ .str s) → (∀ es, v ≠ .dict es) →
      clean_dps env (.list [.dict [(.str "options", .dict od),
          (.str "terms", .list (v :: ts))]]) =
        .error (.apiInputError ("Expecting a basestring or dict in place of: " ++ pyStr v))) ∧
    ((∀ es, v ≠ .dict es) → (∀ n, v ≠ .agg n) → (∀ l, v ≠ .tuple l) →
      clean_pdps env (.list [.dict [(.str "options", .dict od),
          (.str "terms", .dict [(.str "t", v)])]]) =
        .error (.apiInputError ("Expecting a dict or django Aggregate in place of: " ++
          pyStr v))) ∧
    (dmem sdd (.str "options") = true → dmem sdd (.str "terms") = false →
      clean_dps env (.list [.dict sdd]) =
        .error (.apiInputError (pyStr (.dict sdd) ++ " is missing the 'terms' key.")) ∧
      clean_pdps env (.list [.dict sdd]) =
        .error (.apiInputError (pyStr (.dict sdd) ++ " is missing the 'terms' key."))) ∧
    ((∀ es, ov ≠ .dict es) → (∀ l, ov ≠ .tuple l) →
      clean_dps env (.list [.dict [(.str "options", ov), (.str "terms", tv)]]) =
        .error (.apiInputError ("Expecting a dict in place of: " ++ pyStr ov)) ∧
      clean_pdps env (.list [.dict [(.str "options", ov), (.str "terms", tv)]]) =
        .error (.apiInputError ("Expecting a dict in place of: " ++ pyStr ov))) ∧
    (2 ≤ xs.length →
      clean_dps env (.list [.dict [(.str "options", .tuple xs), (.str "terms", tv)]]) =
        .error (.typeError "not all arguments converted during string formatting") ∧
      clean_pdps env (.list [.dict [(.str "options", .tuple xs), (.str "terms", tv)]]) =
        .error (.typeError "not all arguments converted during string formatting")) ∧
    ((∀ l, tv ≠ .list l) → (∀ l, tv ≠ .tuple l) →
      clean_dps env (.list [.dict [(.str "options", .dict od), (.str "terms", tv)]]) =
        .error (.apiInputError ("Expecting a list in place of: " ++ pyStr tv))) ∧
    ((∀ es, tv ≠ .dict es) → (∀ l, tv ≠ .tuple l) →
      clean_pdps env (.list [.dict [(.str "options", .dict od), (.str "terms", tv)]]) =
        .error (.apiInputError ("Expecting a dict in place of: " ++ pyStr tv))) ∧
    (2 ≤ xs.length →
      clean_dps env (.list [.dict [(.str "options", .dict od),
          (.str "terms", .tuple xs)]]) =
        .error (.typeError "not all arguments converted during string formatting") ∧
      clean_pdps env (.list [.dict [(.str "options", .dict od),
          (.str "terms", .tuple xs)]]) =
        .error (.typeError "not all arguments converted during string formatting")) ∧
    (2 ≤ xs.length →
      clean_pdps env (.list [.dict [(.str "options", .dict od),
          (.str "terms", .dict [(.str "t", .tuple xs)])]]) =
        .error (.typeError "not all arguments converted during string formatting")) ∧
    (∀ x : PyVal,
      clean_pdps env (.list [.dict [(.str "options", .dict od),
          (.str "terms", .dict [(.str "t", .tuple [x])])]]) =
        .error (.apiInputError ("Expecting a dict or django Aggregate in place of: " ++
          pyStr x))) := by
  refine ⟨fun hnd => ?_, fun hno => ?_, fun hnn => ?_, fun hns hnd => ?_,
    fun hnd hna hnt => ?_, fun hopt hter => ?_, fun hnd hnt => ?_, fun hlen => ?_,
    fun hnl hnt => ?_, fun hnd hnt => ?_, fun hlen => ?_, fun hlen => ?_, fun x => ?_⟩
  · cases v with
    | dict es => exact absurd rfl (hnd es)
    | none => exact ⟨rfl, rfl⟩
    | bool b => exact ⟨rfl, rfl⟩
    | int n => exact ⟨rfl, rfl⟩
    | str s => exact ⟨rfl, rfl⟩
    | list l => exact ⟨rfl, rfl⟩
    | tuple l => exact ⟨rfl, rfl⟩
    | agg n => exact ⟨rfl, rfl⟩
    | qset n => exact ⟨rfl, rfl⟩
    | func n => exact ⟨rfl, rfl⟩
  · constructor
    · simp [clean_dps, pyTruthy_list, convert_dps_to_dict, dpsFoldSds, dpsProcessSd,
        dpsSdChecks, hno, bindErr]
    · simp [clean_pdps, pyTruthy_list, convert_pdps_to_dict, pdpsFoldSds, pdpsProcessSd,
        pdpsSdChecks, hno, bindErr]
  · have hln : dlookup td (.str "_new_name") = Option.none := by
      cases hl : dlookup td (.str "_new_name") with
      | none => rfl
      | some x => rw [dmem, hl] at hnn; exact Bool.noConfusion hnn
    simp [clean_dps, pyTruthy_list, convert_dps_to_dict, dpsFoldSds, dpsProcessSd,
      dpsSdChecks, dmem, dlookup, dpsFoldTerms, dpsProcessTerm, hln, bindErr, bindOk]
  · cases v with
    | str s => exact absurd rfl (hns s)
    | dict es => exact absurd rfl (hnd es)
    | none => rfl
    | bool b => rfl
    | int n => rfl
    | list l => rfl
    | tuple l => rfl
    | agg n => rfl
    | qset n => rfl
    | func n => rfl
  · cases v with
    | dict es => exact absurd rfl (hnd es)
    | agg n => exact absurd rfl (hna n)
    | tuple l => exact absurd rfl (hnt l)
    | none => rfl
    | bool b => rfl
    | int n => rfl
    | str s => rfl
    | list l => rfl
    | qset n => rfl
    | func n => rfl
  · constructor
    · simp [clean_dps, pyTruthy_list, convert_dps_to_dict, dpsFoldSds, dpsProcessSd,
        dpsSdChecks, hopt, hter, bindErr]
    · simp [clean_pdps, pyTruthy_list, convert_pdps_to_dict, pdpsFoldSds, pdpsProcessSd,
        pdpsSdChecks, hopt, hter, bindErr]
  · cases ov with
    | dict es => exact absurd rfl (hnd es)
    | tuple l => exact absurd rfl (hnt l)
    | none => exact ⟨rfl, rfl⟩
    | bool b => exact ⟨rfl, rfl⟩
    | int n => exact ⟨rfl, rfl⟩
    | str s => exact ⟨rfl, rfl⟩
    | list l => exact ⟨rfl, rfl⟩
    | agg n => exact ⟨rfl, rfl⟩
    | qset n => exact ⟨rfl, rfl⟩
    | func n => exact ⟨rfl, rfl⟩
  · match xs, hlen with
    | a :: b :: zs, _ => exact ⟨rfl, rfl⟩
    | [], h => exact absurd h (by decide)
    | [a], h => exact absurd h (by simp)
  · cases tv with
    | list l => exact absurd rfl (hnl l)
    | tuple l => exact absurd rfl (hnt l)
    | none => rfl
    | bool b => rfl
    | int n => rfl
    | str s => rfl
    | dict es => rfl
    | agg n => rfl
    | qset n => rfl
    | func n => rfl
  · cases tv with
    | dict es => exact absurd rfl (hnd es)
    | tuple l => exact absurd rfl (hnt l)
    | none => rfl
    | bool b => rfl
    | int n => rfl
    | str s => rfl
    | list l => rfl
    | agg n => rfl
    | qset n => rfl
    | func n => rfl
  · match xs, hlen with
    | a :: b :: zs, _ => exact ⟨rfl, rfl⟩
    | [], h => exact absurd h (by decide)
    | [a], h => exact absurd h (by simp)
  · match xs, hlen with
    | a :: b :: zs, _ => exact rfl
    | [], h => exact absurd h (by decide)
    | [a], h => exact absurd h (by simp)
  · exact rfl

/-- C3 (witness for the amended theorem). -/
theorem C3_witness :
    clean_dps env0 (.list [.dict [(.str "options", .dict [(.str "source", .qset 0)]),
        (.str "terms", .list [.int 5])]]) =
      .error (.apiInputError ("Expecting a basestring or dict in place of: " ++
        pyStr (.int 5))) :=
  (C3_amended env0 (.int 5) .none .none [] [(.str "source", .qset 0)] [] [] [] []).2.2.2.1
    (fun _ hh => PyVal.noConfusion hh) (fun _ hh => PyVal.noConfusion hh)

/-! ## C4 — empty `terms` containers -/

/-- C4 (counterexample): `clean_pcso` does not reject an empty `terms` list;
it returns successfully with an empty series-options map. -/
theorem C4_counterexample :
    clean_pcso (.list [.dict [(.str "options", .dict []), (.str "terms", .list [])]]) ⟨[]⟩ =
      .ok (.dict []) := by
  exact rfl

/-- C4 (amended): `clean_dps`, `clean_pdps` and `clean_cso` reject an empty
`terms` container inside a list element with an input error, but
`clean_pcso` has no such check: an empty `terms` list simply contributes no
series to the result map. -/
theorem C4_amended (env : Env) (od : PyDict) (ds : DS) :
    clean_dps env (.list [.dict [(.str "options", .dict od), (.str "terms", .list [])]]) =
      .error (.apiInputError "'terms' cannot be empty.") ∧
    clean_pdps env (.list [.dict [(.str "options", .dict od), (.str "terms", .dict [])]]) =
      .error (.apiInputError "'terms' cannot be empty.") ∧
    clean_cso (.list [.dict [(.str "options", .dict od), (.str "terms", .dict [])]]) ds =
      .error (.apiInputError "'terms' dict cannot be empty.") ∧
    clean_pcso (.list [.dict [(.str "options", .dict od), (.str "terms", .list [])]]) ds =
      .ok (.dict []) := by
  exact ⟨rfl, rfl, rfl, rfl⟩

/-! ## C5 — `clean_cso` dict-form entries and the `_x_axis_term` table check -/

/-- C5: a dict-form `clean_cso` entry must carry an `_x_axis_term` (else an
input error), the referenced term must be a datasource series key (else an
input error), the entry errors with the mismatch message exactly when its
series' `_data` differs from the referenced series' `_data`, and when the
two `_data` are equal the call succeeds returning the entry unchanged. -/
theorem C5_thm (ds : DS) (nk xv : PyVal) (sodEs eA eB : PyDict) (dA dB : PyVal) :
    (dmem ds.series nk = true → dlookup sodEs (.str "_x_axis_term") = Option.none →
      clean_cso (.dict [(nk, .dict sodEs)]) ds =
        .error (.apiInputError ("Expecting a '_x_axis_term' for " ++
          pyStr (.dict sodEs) ++ "."))) ∧
    (dmem ds.series nk = true → dlookup sodEs (.str "_x_axis_term") = some xv →
      dmem ds.series xv = false →
      clean_cso (.dict [(nk, .dict sodEs)]) ds =
        .error (errWithKeys
          (fun j => pyStr xv ++ " is not one of the keys of the datasource " ++
            "series. Allowed values are: " ++ j)
          (dkeys ds.series))) ∧
    (dlookup ds.series nk = some (.dict eA) → dlookup sodEs (.str "_x_axis_term") = some xv →
      dlookup ds.series xv = some (.dict eB) →
      dlookup eA (.str "_data") = some dA → dlookup eB (.str "_data") = some dB →
      dA ≠ dB →
      clean_cso (.dict [(nk, .dict sodEs)]) ds =
        .error (.apiInputError (pyStr nk ++ " and " ++ pyStr xv ++
          " do not belong to the same table."))) ∧
    (dlookup ds.series nk = some (.dict eA) → dlookup sodEs (.str "_x_axis_term") = some xv →
      dlookup ds.series xv = some (.dict eB) →
      dlookup eA (.str "_data") = some dA → dlookup eB (.str "_data") = some dB →
      dA = dB →
      clean_cso (.dict [(nk, .dict sodEs)]) ds = .ok (.dict [(nk, .dict sodEs)])) := by
  refine ⟨fun hm hx => ?_, fun hm hx hxm => ?_, fun hk hx hxk hda hdb hne => ?_,
    fun hk hx hxk hda hdb heq => ?_⟩
  · simp [clean_cso, csoCheckEntries, hm, hx, bindErr]
  · simp [clean_cso, csoCheckEntries, hm, hx, hxm, bindErr]
  · have hm : dmem ds.series nk = true := by rw [dmem, hk]; rfl
    have hxm : dmem ds.series xv = true := by rw [dmem, hxk]; rfl
    simp [clean_cso, csoCheckEntries, hm, hx, hxm, hk, hxk, pySubscript, hda, hdb, hne,
      bindErr, bindOk]
  · subst heq
    have hm : dmem ds.series nk = true := by rw [dmem, hk]; rfl
    have hxm : dmem ds.series xv = true := by rw [dmem, hxk]; rfl
    simp [clean_cso, csoCheckEntries, hm, hx, hxm, hk, hxk, pySubscript, hda, hdb,
      bindErr, bindOk]

/-- C5 (witness). -/
theorem C5_witness :
    clean_cso (.dict [(.str "a", .dict [(.str "_x_axis_term", .str "b")])]) dsFix =
      .ok (.dict [(.str "a", .dict [(.str "_x_axis_term", .str "b")])]) ∧
    clean_cso (.dict [(.str "a", .dict [(.str "_x_axis_term", .str "c")])]) dsFix =
      .error (.apiInputError (pyStr (.str "a") ++ " and " ++ pyStr (.str "c") ++
        " do not belong to the same table.")) := by
  constructor
  · exact (C5_thm dsFix (.str "a") (.str "b") [(.str "_x_axis_term", .str "b")]
      [(.str "_data", .int 1)] [(.str "_data", .int 1)] (.int 1) (.int 1)).2.2.2
      rfl rfl rfl rfl rfl rfl
  · exact (C5_thm dsFix (.str "a") (.str "c") [(.str "_x_axis_term", .str "c")]
      [(.str "_data", .int 1)] [(.str "_data", .int 2)] (.int 1) (.int 2)).2.2.1
      rfl rfl rfl rfl rfl (by decide)

/-! ## C7 — empty and non-list inputs of `clean_dps` / `clean_pdps` -/

/-- C7 (counterexample): the claim says every non-list input fails with the
type error naming the expected list type, but the falsy non-list input
`None` fails with the `"cannot be empty"` message instead. -/
theorem C7_counterexample :
    clean_dps env0 .none = .error (.apiInputError "'series' cannot be empty.") ∧
    clean_pdps env0 .none = .error (.apiInputError "'series' cannot be empty.") ∧
    "'series' cannot be empty." ≠ "Expecting a list in place of: " ++ pyStr PyVal.none := by
  exact ⟨rfl, rfl, by decide⟩

/-- C7 (amended): `clean_dps([])` / `clean_pdps([])` fail with the
`"'series' cannot be empty."` input error; every falsy input (such as
`None`, `{}`, `''`, `0`, `()`) fails with that same message; every truthy
input that is neither a list nor a tuple fails with the
`"Expecting a list in place of: ..."` input error; a tuple of length ≥ 2
makes the `"%s"` message formatting itself raise `TypeError`; and a 1-tuple
fails with the input error whose message holds the tuple's element, not the
tuple. -/
theorem C7_amended (env : Env) (v : PyVal) :
    (clean_dps env (.list []) = .error (.apiInputError "'series' cannot be empty.") ∧
     clean_pdps env (.list []) = .error (.apiInputError "'series' cannot be empty.")) ∧
    (pyTruthy v = false →
      clean_dps env v = .error (.apiInputError "'series' cannot be empty.") ∧
      clean_pdps env v = .error (.apiInputError "'series' cannot be empty.")) ∧
    (pyTruthy v = true → (∀ l, v ≠ .list l) → (∀ l, v ≠ .tuple l) →
      clean_dps env v = .error (.apiInputError ("Expecting a list in place of: " ++ pyStr v)) ∧
      clean_pdps env v = .error (.apiInputError ("Expecting a list in place of: " ++ pyStr v))) ∧
    (∀ xs : List PyVal, 2 ≤ xs.length →
      clean_dps env (.tuple xs) =
        .error (.typeError "not all arguments converted during string formatting") ∧
      clean_pdps env (.tuple xs) =
        .error (.typeError "not all arguments converted during string formatting")) ∧
    (∀ x : PyVal,
      clean_dps env (.tuple [x]) =
        .error (.apiInputError ("Expecting a list in place of: " ++ pyStr x)) ∧
      clean_pdps env (.tuple [x]) =
        .error (.apiInputError ("Expecting a list in place of: " ++ pyStr x))) := by
  refine ⟨⟨rfl, rfl⟩, fun hf => ⟨by simp [clean_dps, hf], by simp [clean_pdps, hf]⟩,
    fun ht hnl hnt => ?_, fun xs hlen => ?_, fun x => ⟨rfl, rfl⟩⟩
  · cases v with
    | list l => exact absurd rfl (hnl l)
    | tuple l => exact absurd rfl (hnt l)
    | none => exact ⟨by simp [clean_dps, apiErrFmt1, pyFmt1With, ht],
        by simp [clean_pdps, apiErrFmt1, pyFmt1With, ht]⟩
    | bool b => exact ⟨by simp [clean_dps, apiErrFmt1, pyFmt1With, ht],
        by simp [clean_pdps, apiErrFmt1, pyFmt1With, ht]⟩
    | int n => exact ⟨by simp [clean_dps, apiErrFmt1, pyFmt1With, ht],
        by simp [clean_pdps, apiErrFmt1, pyFmt1With, ht]⟩
    | str s => exact ⟨by simp [clean_dps, apiErrFmt1, pyFmt1With, ht],
        by simp [clean_pdps, apiErrFmt1, pyFmt1With, ht]⟩
    | dict es => exact ⟨by simp [clean_dps, apiErrFmt1, pyFmt1With, ht],
        by simp [clean_pdps, apiErrFmt1, pyFmt1With, ht]⟩
    | agg n => exact ⟨by simp [clean_dps, apiErrFmt1, pyFmt1With, ht],
        by simp [clean_pdps, apiErrFmt1, pyFmt1With, ht]⟩
    | qset n => exact ⟨by simp [clean_dps, apiErrFmt1, pyFmt1With, ht],
        by simp [clean_pdps, apiErrFmt1, pyFmt1With, ht]⟩
    | func n => exact ⟨by simp [clean_dps, apiErrFmt1, pyFmt1With, ht],
        by simp [clean_pdps, apiErrFmt1, pyFmt1With, ht]⟩
  · match xs, hlen with
    | a :: b :: zs, _ => exact ⟨rfl, rfl⟩
    | [], h => exact absurd h (by decide)
    | [a], h => exact absurd h (by simp)

/-- C7 (witness for the amended theorem). -/
theorem C7_witness :
    pyTruthy (.str "x") = true ∧
    clean_dps env0 (.str "x") =
      .error (.apiInputError ("Expecting a list in place of: " ++ pyStr (.str "x"))) := by
  exact ⟨rfl, ((C7_amended env0 (.str "x")).2.2.1 rfl (fun l h => PyVal.noConfusion h)
    (fun l h => PyVal.noConfusion h)).1⟩

/-! ## C8 — `clean_sortf_mapf_mts` -/

/-- C8 (counterexample): the claim says every nonempty tuple of length ≠ 3
raises an input error, but for a 2-tuple the `"%r ..." % sortf_mapf_mts`
message formatting itself raises `TypeError` (the `APIInputError` is never
constructed), and a 1-tuple's input-error message holds the element's repr,
not the tuple's. -/
theorem C8_counterexample :
    clean_sortf_mapf_mts (.tuple [.func 1, .func 2]) =
      .error (.typeError "not all arguments converted during string formatting") ∧
    clean_sortf_mapf_mts (.tuple [.int 5]) =
      .error (.apiInputError (pyRepr (.int 5) ++ " must have exactly three elements.")) ∧
    pyRepr (.int 5) ≠ pyRepr (.tuple [.int 5]) := by
  exact ⟨rfl, rfl, by decide⟩

/-- C8 (amended): a falsy input (in particular the empty tuple) yields the
default triple `(None, None, False)`; a 3-tuple whose first two slots are
each falsy (e.g. `None`) or callable yields `(f, g, bool(x))`; a truthy
non-tuple, and a truthy non-callable in either of the first two slots, each
raise an `APIInputError`; but the wrong-arity branch only produces its input
error for a 1-tuple (with the element's repr in the message) — for a tuple
of length ≥ 2 (and ≠ 3) the `"%r"` formatting raises `TypeError` instead. -/
theorem C8_thm (v sortf mapf mts : PyVal) :
    (pyTruthy v = false → clean_sortf_mapf_mts v = .ok (.tuple [.none, .none, .bool false])) ∧
    ((pyTruthy sortf = false ∨ pyCallable sortf = true) →
     (pyTruthy mapf = false ∨ pyCallable mapf = true) →
      clean_sortf_mapf_mts (.tuple [sortf, mapf, mts]) =
        .ok (.tuple [sortf, mapf, .bool (pyTruthy mts)])) ∧
    (pyTruthy v = true → (∀ xs, v ≠ .tuple xs) →
      clean_sortf_mapf_mts v = .error (.apiInputError "sortf_mapf_mts must be a tuple!")) ∧
    (∀ xs : List PyVal, 2 ≤ xs.length → xs.length ≠ 3 →
      clean_sortf_mapf_mts (.tuple xs) =
        .error (.typeError "not all arguments converted during string formatting")) ∧
    (∀ x : PyVal,
      clean_sortf_mapf_mts (.tuple [x]) =
        .error (.apiInputError (pyRepr x ++ " must have exactly three elements."))) ∧
    (pyTruthy sortf = true → pyCallable sortf = false →
      clean_sortf_mapf_mts (.tuple [sortf, mapf, mts]) =
        .error (.apiInputError "sortf must be callable or None.")) ∧
    ((pyTruthy sortf = false ∨ pyCallable sortf = true) →
     pyTruthy mapf = true → pyCallable mapf = false →
      clean_sortf_mapf_mts (.tuple [sortf, mapf, mts]) =
        .error (.apiInputError "mapf must be callable or None.")) := by
  refine ⟨fun hf => by simp [clean_sortf_mapf_mts, hf], fun hs hm => ?_, fun ht hnt => ?_,
    fun xs hlen hne => ?_, fun x => rfl, fun hs hc => ?_, fun hs hm hc => ?_⟩
  · rcases hs with h | h <;> rcases hm with h2 | h2 <;>
      simp [clean_sortf_mapf_mts, pyTruthy_tuple, h, h2]
  · cases v with
    | tuple xs => exact absurd rfl (hnt xs)
    | none => exact absurd ht (by simp [pyTruthy_none])
    | bool b => simp [clean_sortf_mapf_mts, ht]
    | int n => simp [clean_sortf_mapf_mts, ht]
    | str s => simp [clean_sortf_mapf_mts, ht]
    | list l => simp [clean_sortf_mapf_mts, ht]
    | dict es => simp [clean_sortf_mapf_mts, ht]
    | agg n => simp [clean_sortf_mapf_mts, ht]
    | qset n => simp [clean_sortf_mapf_mts, ht]
    | func n => simp [clean_sortf_mapf_mts, ht]
  · match xs, hlen, hne with
    | [a, b], _, _ => rfl
    | a :: b :: c :: d :: rest, _, _ => rfl
    | [a, b, c], _, hne => exact absurd rfl hne
    | [], h, _ => exact absurd h (by decide)
    | [a], h, _ => exact absurd h (by simp)
  · simp [clean_sortf_mapf_mts, pyTruthy_tuple, hs, hc]
  · rcases hs with h | h <;> simp [clean_sortf_mapf_mts, pyTruthy_tuple, h, hm, hc]

/-- C8 (witness for the amended theorem). -/
theorem C8_witness :
    clean_sortf_mapf_mts (.tuple []) = .ok (.tuple [.none, .none, .bool false]) ∧
    clean_sortf_mapf_mts (.tuple [.func 1, .func 2, .int 1]) =
      .ok (.tuple [.func 1, .func 2, .bool true]) ∧
    clean_sortf_mapf_mts (.tuple [.func 1, .func 2]) =
      .error (.typeError "not all arguments converted during string formatting") ∧
    clean_sortf_mapf_mts (.list [.none, .none, .none]) =
      .error (.apiInputError "sortf_mapf_mts must be a tuple!") := by
  refine ⟨(C8_thm (.tuple []) .none .none .none).1 rfl, ?_, ?_, ?_⟩
  · have h := (C8_thm .none (.func 1) (.func 2) (.int 1)).2.1 (Or.inr rfl) (Or.inr rfl)
    simpa using h
  · exact (C8_thm .none .none .none .none).2.2.2.1 [.func 1, .func 2] (by decide) (by decide)
  · exact (C8_thm (.list [.none, .none, .none]) .none .none .none).2.2.1 rfl
      (fun xs h => PyVal.noConfusion h)

/-! ## C9 — `clean_x_sortf_mapf_mts` -/

theorem cleanXFold_spec : ∀ ts cs : List PyVal, cleanXFold ts = .ok cs →
    cs.length = ts.length ∧
    ∀ i (hi : i < ts.length) (hj : i < cs.length),
      clean_sortf_mapf_mts (ts.get ⟨i, hi⟩) = .ok (cs.get ⟨i, hj⟩)
  | [], cs, h => by
    have h' : (Except.ok ([] : List PyVal) : Except PyErr (List PyVal)) = .ok cs := h
    cases Except.ok.inj h'
    exact ⟨rfl, fun i hi _ => absurd hi (Nat.not_lt_zero i)⟩
  | t :: ts, cs, h => by
    rw [cleanXFold] at h
    cases hc : clean_sortf_mapf_mts t with
    | error e =>
      rw [hc, bindErr] at h
      exact Except.noConfusion h
    | ok c =>
      rw [hc, bindOk] at h
      cases hf : cleanXFold ts with
      | error e =>
        rw [hf, bindErr] at h
        exact Except.noConfusion h
      | ok cs' =>
        rw [hf, bindOk] at h
        cases Except.ok.inj h
        obtain ⟨hl, hg⟩ := cleanXFold_spec ts cs' hf
        refine ⟨by simp [hl], fun i hi hj => ?_⟩
        cases i with
        | zero => simpa using hc
        | succ n =>
          exact hg n (by simpa using hi) (by simpa using hj)

/-- C9 (counterexample): on the empty list the function does not return a
list of the same length — it returns the one-element default list. -/
theorem C9_counterexample :
    clean_x_sortf_mapf_mts (.list []) = .ok (.list [.tuple [.none, .none, .bool false]]) ∧
    ([PyVal.tuple [.none, .none, .bool false]].length = 1 ∧ (([] : List PyVal)).length = 0) := by
  exact ⟨rfl, rfl, rfl⟩

/-- C9 (amended): for every *nonempty* list input whose elements all clean
successfully, the result is a list of the same length whose `i`-th element
is `clean_sortf_mapf_mts` of the `i`-th input element; a single (nonempty)
tuple is treated as a one-element list of that tuple; the empty list, being
falsy, instead yields the one-element default list. -/
theorem C9_amended :
    (∀ (xs cs : List PyVal), xs ≠ [] →
      clean_x_sortf_mapf_mts (.list xs) = .ok (.list cs) →
      cs.length = xs.length ∧
      ∀ i (hi : i < xs.length) (hj : i < cs.length),
        clean_sortf_mapf_mts (xs.get ⟨i, hi⟩) = .ok (cs.get ⟨i, hj⟩)) ∧
    (∀ (ts : List PyVal) (c : PyVal), ts ≠ [] →
      clean_sortf_mapf_mts (.tuple ts) = .ok c →
      clean_x_sortf_mapf_mts (.tuple ts) = .ok (.list [c])) ∧
    clean_x_sortf_mapf_mts (.list []) = .ok (.list [.tuple [.none, .none, .bool false]]) := by
  refine ⟨fun xs cs hne h => ?_, fun ts c hne h => ?_, rfl⟩
  · match xs, hne with
    | x :: xs', _ =>
      have h' : cleanXFold (x :: xs') >>= (fun cs0 => Except.ok (PyVal.list cs0)) =
          .ok (.list cs) := h
      cases hf : cleanXFold (x :: xs') with
      | error e =>
        rw [hf, bindErr] at h'
        exact Except.noConfusion h'
      | ok cs0 =>
        rw [hf, bindOk] at h'
        obtain rfl := PyVal.list.inj (Except.ok.inj h')
        exact cleanXFold_spec (x :: xs') _ hf
  · match ts, hne with
    | t :: ts', _ =>
      have hred : clean_x_sortf_mapf_mts (.tuple (t :: ts')) =
          cleanXFold [.tuple (t :: ts')] >>= (fun cs0 => Except.ok (PyVal.list cs0)) := rfl
      rw [hred, cleanXFold, h, bindOk, cleanXFold, bindOk, bindOk]

/-- C9 (witness for the amended theorem). -/
theorem C9_witness :
    ∃ cs : List PyVal,
      clean_x_sortf_mapf_mts
        (.list [.tuple [.none, .none, .int 1], .tuple [.func 5, .none, .none]]) =
        .ok (.list cs) ∧ cs.length = 2 := by
  have h := (C9_amended).1 [.tuple [.none, .none, .int 1], .tuple [.func 5, .none, .none]]
    [.tuple [.none, .none, .bool true], .tuple [.func 5, .none, .bool false]]
    (by simp) rfl
  exact ⟨_, rfl, h.1⟩

/-! ## C10 — `clean_dps` mutates the caller's dict terms -/

theorem dpsProcessTerm_state (env : Env) (o : PyDict) (t : PyVal)
    (out : PyVal × PyDict × PyVal) (h : dpsProcessTerm env o t = .ok out) :
    out.2.2 = termFinalState t := by
  cases t with
  | str s =>
    cases hf : dpsFinishTerm env (.str s) o with
    | error e =>
      simp only [dpsProcessTerm, hf, bindErr] at h
      exact Except.noConfusion h
    | ok r0 =>
      simp only [dpsProcessTerm, hf, bindOk] at h
      obtain rfl := Except.ok.inj h
      rfl
  | dict td =>
    cases hl : dlookup td (.str "_new_name") with
    | none =>
      simp only [dpsProcessTerm, hl] at h
      exact Except.noConfusion h
    | some nn =>
      cases hf : dpsFinishTerm env nn (dupdate o (ddel td (.str "_new_name"))) with
      | error e =>
        simp only [dpsProcessTerm, hl, hf, bindErr] at h
        exact Except.noConfusion h
      | ok r0 =>
        simp only [dpsProcessTerm, hl, hf, bindOk] at h
        obtain rfl := Except.ok.inj h
        rfl
  | none => exact Except.noConfusion h
  | bool b => exact Except.noConfusion h
  | int n => exact Except.noConfusion h
  | list l => exact Except.noConfusion h
  | tuple xs => exact Except.noConfusion h
  | agg n => exact Except.noConfusion h
  | qset n => exact Except.noConfusion h
  | func n => exact Except.noConfusion h

theorem dpsFoldTerms_state (env : Env) (o : PyDict) :
    ∀ (ts : List PyVal) (acc : PyDict) (out : PyDict × List PyVal),
      dpsFoldTerms env o acc ts = .ok out → out.2 = ts.map termFinalState
  | [], acc, out, h => by
    obtain rfl := Except.ok.inj h
    rfl
  | t :: ts, acc, out, h => by
    rw [dpsFoldTerms] at h
    cases hp : dpsProcessTerm env o t with
    | error e =>
      rw [hp, bindErr] at h
      exact Except.noConfusion h
    | ok ntr =>
      obtain ⟨n, r, t'⟩ := ntr
      rw [hp, bindOk] at h
      cases hf : dpsFoldTerms env o (dinsert acc n (.dict r)) ts with
      | error e =>
        simp only [hf, bindErr] at h
        exact Except.noConfusion h
      | ok p =>
        obtain ⟨d, ts'⟩ := p
        simp only [hf, bindOk] at h
        obtain rfl := Except.ok.inj h
        have h1 := dpsProcessTerm_state env o t (n, r, t') hp
        have h2 := dpsFoldTerms_state env o ts (dinsert acc n (.dict r)) (d, ts') hf
        simp only [List.map]
        rw [← h1, ← h2]

/-- Inversion for successful DataPool shape checks: the element was the
dict returned as first component, and its `terms` value is the returned
term list. -/
theorem dpsSdChecks_ok (sd : PyVal) (p : PyDict × PyDict × List PyVal)
    (h : dpsSdChecks sd = .ok p) :
    sd = .dict p.1 ∧ (dlookup p.1 (.str "terms")).getD .none = .list p.2.2 := by
  cases sd with
  | dict sdd =>
    rw [dpsSdChecks] at h
    by_cases h1 : dmem sdd (.str "options") = true
    case neg =>
      rw [if_pos h1] at h
      exact Except.noConfusion h
    case pos =>
      rw [if_neg (not_not_intro h1)] at h
      by_cases h2 : dmem sdd (.str "terms") = true
      case neg =>
        rw [if_pos h2] at h
        exact Except.noConfusion h
      case pos =>
        rw [if_neg (not_not_intro h2)] at h
        cases ho : (dlookup sdd (.str "options")).getD .none
        case dict od =>
          simp only [ho] at h
          cases ht : (dlookup sdd (.str "terms")).getD .none
          case list ts =>
            simp only [ht] at h
            by_cases hemp : ts.isEmpty = true
            case pos =>
              rw [if_pos hemp] at h
              exact Except.noConfusion h
            case neg =>
              rw [if_neg hemp] at h
              obtain rfl := Except.ok.inj h
              exact ⟨rfl, ht⟩
          all_goals (simp only [ht] at h; exact Except.noConfusion h)
        all_goals (simp only [ho] at h; exact Except.noConfusion h)
  | none => exact Except.noConfusion h
  | bool b => exact Except.noConfusion h
  | int n => exact Except.noConfusion h
  | str s => exact Except.noConfusion h
  | list l => exact Except.noConfusion h
  | tuple xs => exact Except.noConfusion h
  | agg n => exact Except.noConfusion h
  | qset n => exact Except.noConfusion h
  | func n => exact Except.noConfusion h

theorem dpsProcessSd_state (env : Env) (acc : PyDict) (sd : PyVal)
    (out : PyDict × PyVal) (h : dpsProcessSd env acc sd = .ok out) :
    out.2 = sdFinalState sd := by
  cases hc : dpsSdChecks sd with
  | error e =>
    rw [dpsProcessSd, hc, bindErr] at h
    exact Except.noConfusion h
  | ok p =>
    obtain ⟨sdd, od, ts⟩ := p
    rw [dpsProcessSd, hc] at h
    simp only [bindOk] at h
    cases hf : dpsFoldTerms env od acc ts with
    | error e =>
      simp only [hf, bindErr] at h
      exact Except.noConfusion h
    | ok q =>
      obtain ⟨acc', ts'⟩ := q
      simp only [hf, bindOk] at h
      obtain rfl := Except.ok.inj h
      obtain ⟨hsd, hterms⟩ := dpsSdChecks_ok sd (sdd, od, ts) hc
      subst hsd
      have h2 : ts' = List.map termFinalState ts := dpsFoldTerms_state env od ts acc (acc', ts') hf
      simp only [sdFinalState, hterms]
      rw [h2]

theorem dpsFoldSds_state (env : Env) :
    ∀ (sds : List PyVal) (acc : PyDict) (out : PyDict × List PyVal),
      dpsFoldSds env acc sds = .ok out → out.2 = sds.map sdFinalState
  | [], acc, out, h => by
    obtain rfl := Except.ok.inj h
    rfl
  | sd :: sds, acc, out, h => by
    rw [dpsFoldSds] at h
    cases hp : dpsProcessSd env acc sd with
    | error e =>
      rw [hp, bindErr] at h
      exact Except.noConfusion h
    | ok p =>
      obtain ⟨acc', sd'⟩ := p
      rw [hp, bindOk] at h
      cases hf : dpsFoldSds env acc' sds with
      | error e =>
        simp only [hf, bindErr] at h
        exact Except.noConfusion h
      | ok q =>
        obtain ⟨d, sds'⟩ := q
        simp only [hf, bindOk] at h
        obtain rfl := Except.ok.inj h
        have h1 := dpsProcessSd_state env acc sd (acc', sd') hp
        have h2 := dpsFoldSds_state env sds acc' (d, sds') hf
        simp only [List.map]
        rw [← h1, ← h2]

/-- C10: on every successful `clean_dps` call, the final state of the
caller's series list is the input with every dict term's `_new_name` key
deleted (the term dicts are mutated in place, only the `options` template is
copied); and whenever a dict term is processed successfully, it carried a
`_new_name` key and ends up stripped of it. -/
theorem C10_thm (env : Env) (sl : List PyVal) (res out : PyVal)
    (h : clean_dps env (.list sl) = .ok (res, out)) :
    out = .list (sl.map sdFinalState) ∧
    (∀ (td o : PyDict) (ret : PyVal × PyDict × PyVal),
      dpsProcessTerm env o (.dict td) = .ok ret →
      dmem td (.str "_new_name") = true ∧ ret.2.2 = .dict (ddel td (.str "_new_name"))) := by
  constructor
  · cases sl with
    | nil => exact Except.noConfusion h
    | cons sd sds =>
      have h' : (dpsFoldSds env [] (sd :: sds)) >>=
          (fun p => Except.ok ((.dict p.1 : PyVal), (.list p.2 : PyVal))) = .ok (res, out) := h
      cases hf : dpsFoldSds env [] (sd :: sds) with
      | error e =>
        rw [hf, bindErr] at h'
        exact Except.noConfusion h'
      | ok p =>
        obtain ⟨d, sl'⟩ := p
        rw [hf, bindOk] at h'
        have hpair := Except.ok.inj h'
        have h2 := congrArg Prod.snd hpair
        simp only at h2
        rw [← h2]
        have hs := dpsFoldSds_state env (sd :: sds) [] (d, sl') hf
        simp only at hs
        rw [hs]
  · intro td o ret hp
    cases hl : dlookup td (.str "_new_name") with
    | none =>
      simp only [dpsProcessTerm, hl] at hp
      exact Except.noConfusion hp
    | some nn =>
      refine ⟨by rw [dmem, hl]; rfl, ?_⟩
      exact dpsProcessTerm_state env o (.dict td) ret hp

/-- C10 (witness): a concrete successful run in which the returned state of
the caller's series list has lost the `_new_name` key of its dict term. -/
theorem C10_witness :
    (PyVal.list [.dict [(.str "options", .dict [(.str "source", .qset 0)]),
        (.str "terms", .list [.dict [(.str "field", .str "price")]])]]) =
      .list (([.dict [(.str "options", .dict [(.str "source", .qset 0)]),
        (.str "terms", .list [.dict [(.str "_new_name", .str "p2"),
          (.str "field", .str "price")]])]] : List PyVal).map sdFinalState) :=
  (C10_thm env0
    [.dict [(.str "options", .dict [(.str "source", .qset 0)]),
      (.str "terms", .list [.dict [(.str "_new_name", .str "p2"),
        (.str "field", .str "price")]])]]
    (.dict [(.str "p2", .dict [(.str "source", .qset 0), (.str "field", .str "price"),
      (.str "field_alias", .str "p2")])])
    (.list [.dict [(.str "options", .dict [(.str "source", .qset 0)]),
      (.str "terms", .list [.dict [(.str "field", .str "price")]])]])
    rfl).1

/-! ## C6 — duplicate series names: last write wins -/

theorem dlookup_dinsert (d : PyDict) (k : PyVal) (v : PyVal) (k' : PyVal) :
    dlookup (dinsert d k v) k' = if k = k' then some v else dlookup d k' := by
  induction d with
  | nil => rfl
  | cons kv d ih =>
    obtain ⟨k0, v0⟩ := kv
    rw [dinsert]
    by_cases h0 : k0 = k
    · subst h0
      rw [if_pos rfl]
      by_cases hk : k0 = k'
      · subst hk
        rw [dlookup, if_pos rfl, if_pos rfl]
      · rw [dlookup, if_neg hk, if_neg hk, dlookup, if_neg hk]
    · rw [if_neg h0, dlookup]
      by_cases hk : k0 = k'
      · subst hk
        have : ¬ k = k0 := fun hh => h0 hh.symm
        rw [if_pos rfl, if_neg this, dlookup, if_pos rfl]
      · rw [if_neg hk, ih, dlookup, if_neg hk]

theorem dpsFoldTerms_write (env : Env) (o : PyDict) :
    ∀ (ts : List PyVal) (acc : PyDict) (out : PyDict × List PyVal) (k : PyVal),
      dpsFoldTerms env o acc ts = .ok out →
      dlookup out.1 k = (match dpsTermsWrite env o k ts with
        | some r => some (.dict r)
        | Option.none => dlookup acc k)
  | [], acc, out, k, h => by
    obtain rfl := Except.ok.inj h
    rfl
  | t :: ts, acc, out, k, h => by
    rw [dpsFoldTerms] at h
    cases hp : dpsProcessTerm env o t with
    | error e =>
      rw [hp, bindErr] at h
      exact Except.noConfusion h
    | ok ntr =>
      obtain ⟨n, r, t'⟩ := ntr
      rw [hp, bindOk] at h
      cases hf : dpsFoldTerms env o (dinsert acc n (.dict r)) ts with
      | error e =>
        simp only [hf, bindErr] at h
        exact Except.noConfusion h
      | ok p =>
        obtain ⟨d, ts'⟩ := p
        simp only [hf, bindOk] at h
        obtain rfl := Except.ok.inj h
        have ih := dpsFoldTerms_write env o ts (dinsert acc n (.dict r)) (d, ts') k hf
        rw [dpsTermsWrite]
        cases hw : dpsTermsWrite env o k ts with
        | some r2 =>
          rw [hw] at ih
          simpa using ih
        | none =>
          rw [hw] at ih
          simp only at ih ⊢
          rw [ih, dlookup_dinsert]
          simp only [dpsTermWrite, hp]
          by_cases hnk : n = k
          · simp [hnk]
          · simp [hnk]

theorem dpsFoldTerms_error_indep (env : Env) (o : PyDict) :
    ∀ (ts : List PyVal) (acc1 acc2 : PyDict) (e : PyErr),
      dpsFoldTerms env o acc1 ts = .error e → dpsFoldTerms env o acc2 ts = .error e
  | [], _, _, _, h => Except.noConfusion h
  | t :: ts, acc1, acc2, e, h => by
    rw [dpsFoldTerms] at h ⊢
    cases hp : dpsProcessTerm env o t with
    | error e1 =>
      rw [hp] at h
      rw [bindErr] at h ⊢
      exact h
    | ok ntr =>
      obtain ⟨n, r, t'⟩ := ntr
      rw [hp] at h
      simp only [bindOk] at h ⊢
      cases hf : dpsFoldTerms env o (dinsert acc1 n (.dict r)) ts with
      | error e1 =>
        have hf2 := dpsFoldTerms_error_indep env o ts (dinsert acc1 n (.dict r))
          (dinsert acc2 n (.dict r)) e1 hf
        simp only [hf, bindErr] at h
        simp only [hf2, bindErr]
        exact h
      | ok p =>
        obtain ⟨d, ts'⟩ := p
        simp only [hf, bindOk] at h
        exact Except.noConfusion h

theorem dpsProcessSd_write (env : Env) (acc : PyDict) (sd : PyVal)
    (out : PyDict × PyVal) (k : PyVal) (h : dpsProcessSd env acc sd = .ok out) :
    dlookup out.1 k = (match dpsSdWrite env k sd with
      | some r => some (.dict r)
      | Option.none => dlookup acc k) := by
  cases hc : dpsSdChecks sd with
  | error e =>
    rw [dpsProcessSd, hc, bindErr] at h
    exact Except.noConfusion h
  | ok p =>
    obtain ⟨sdd, od, ts⟩ := p
    rw [dpsProcessSd, hc] at h
    simp only [bindOk] at h
    cases hf : dpsFoldTerms env od acc ts with
    | error e =>
      simp only [hf, bindErr] at h
      exact Except.noConfusion h
    | ok q =>
      obtain ⟨acc', ts'⟩ := q
      simp only [hf, bindOk] at h
      obtain rfl := Except.ok.inj h
      have hw := dpsFoldTerms_write env od ts acc (acc', ts') k hf
      simp only [dpsSdWrite, hc]
      exact hw

theorem dpsProcessSd_error_indep (env : Env) (acc1 acc2 : PyDict) (sd : PyVal) (e : PyErr)
    (h : dpsProcessSd env acc1 sd = .error e) : dpsProcessSd env acc2 sd = .error e := by
  cases hc : dpsSdChecks sd with
  | error e0 =>
    rw [dpsProcessSd, hc, bindErr] at h
    rw [dpsProcessSd, hc, bindErr]
    exact h
  | ok p =>
    obtain ⟨sdd, od, ts⟩ := p
    rw [dpsProcessSd, hc] at h ⊢
    simp only [bindOk] at h ⊢
    cases hf1 : dpsFoldTerms env od acc1 ts with
    | error e1 =>
      rw [hf1, bindErr] at h
      rw [dpsFoldTerms_error_indep env od ts acc1 acc2 e1 hf1, bindErr]
      exact h
    | ok q =>
      obtain ⟨acc', ts'⟩ := q
      simp only [hf1, bindOk] at h
      exact Except.noConfusion h

theorem dpsFoldSds_write (env : Env) :
    ∀ (sds : List PyVal) (acc : PyDict) (out : PyDict × List PyVal) (k : PyVal),
      dpsFoldSds env acc sds = .ok out →
      dlookup out.1 k = (match dpsSdsWrite env k sds with
        | some r => some (.dict r)
        | Option.none => dlookup acc k)
  | [], acc, out, k, h => by
    obtain rfl := Except.ok.inj h
    rfl
  | sd :: sds, acc, out, k, h => by
    rw [dpsFoldSds] at h
    cases hp : dpsProcessSd env acc sd with
    | error e =>
      rw [hp, bindErr] at h
      exact Except.noConfusion h
    | ok p =>
      obtain ⟨acc', sd'⟩ := p
      rw [hp, bindOk] at h
      cases hf : dpsFoldSds env acc' sds with
      | error e =>
        simp only [hf, bindErr] at h
        exact Except.noConfusion h
      | ok q =>
        obtain ⟨d, sds'⟩ := q
        simp only [hf, bindOk] at h
        obtain rfl := Except.ok.inj h
        have ih := dpsFoldSds_write env sds acc' (d, sds') k hf
        rw [dpsSdsWrite]
        cases hw : dpsSdsWrite env k sds with
        | some r2 =>
          rw [hw] at ih
          simpa using ih
        | none =>
          rw [hw] at ih
          simp only at ih ⊢
          rw [ih]
          have hpw := dpsProcessSd_write env acc sd (acc', sd') k hp
          simpa using hpw

theorem dpsFoldSds_error_indep (env : Env) :
    ∀ (sds : List PyVal) (acc1 acc2 : PyDict) (e : PyErr),
      dpsFoldSds env acc1 sds = .error e → dpsFoldSds env acc2 sds = .error e
  | [], _, _, _, h => Except.noConfusion h
  | sd :: sds, acc1, acc2, e, h => by
    rw [dpsFoldSds] at h ⊢
    cases hp1 : dpsProcessSd env acc1 sd with
    | error e1 =>
      have hp2 := dpsProcessSd_error_indep env acc1 acc2 sd e1 hp1
      rw [hp1] at h
      rw [hp2]
      rw [bindErr] at h ⊢
      exact h
    | ok p1 =>
      obtain ⟨acc1', sd1'⟩ := p1
      rw [hp1] at h
      simp only [bindOk] at h
      cases hp2 : dpsProcessSd env acc2 sd with
      | error e2 =>
        have hp1' := dpsProcessSd_error_indep env acc2 acc1 sd e2 hp2
        rw [hp1'] at hp1
        exact Except.noConfusion hp1
      | ok p2 =>
        obtain ⟨acc2', sd2'⟩ := p2
        simp only [bindOk]
        cases hf1 : dpsFoldSds env acc1' sds with
        | error e1 =>
          rw [hf1, bindErr] at h
          rw [dpsFoldSds_error_indep env sds acc1' acc2' e1 hf1, bindErr]
          exact h
        | ok q =>
          obtain ⟨d, sds'⟩ := q
          simp only [hf1, bindOk] at h
          exact Except.noConfusion h

theorem pdpsFoldTerms_write (env : Env) (o : PyDict) :
    ∀ (items : List (PyVal × PyVal)) (acc : PyDict) (out : PyDict) (k : PyVal),
      pdpsFoldTerms env o acc items = .ok out →
      dlookup out k = (match pdpsItemsWrite env o k items with
        | some r => some (.dict r)
        | Option.none => dlookup acc k)
  | [], acc, out, k, h => by
    obtain rfl := Except.ok.inj h
    rfl
  | (tk, tv) :: items, acc, out, k, h => by
    rw [pdpsFoldTerms] at h
    cases hp : pdpsProcessTerm env o tk tv with
    | error e =>
      rw [hp, bindErr] at h
      exact Except.noConfusion h
    | ok nr =>
      obtain ⟨n, r⟩ := nr
      rw [hp] at h
      simp only [bindOk] at h
      have ih := pdpsFoldTerms_write env o items (dinsert acc n (.dict r)) out k h
      rw [pdpsItemsWrite]
      cases hw : pdpsItemsWrite env o k items with
      | some r2 =>
        rw [hw] at ih
        simpa using ih
      | none =>
        rw [hw] at ih
        simp only at ih ⊢
        rw [ih, dlookup_dinsert]
        simp only [pdpsItemWrite, hp]
        by_cases hnk : n = k
        · simp [hnk]
        · simp [hnk]

theorem pdpsFoldTerms_error_indep (env : Env) (o : PyDict) :
    ∀ (items : List (PyVal × PyVal)) (acc1 acc2 : PyDict) (e : PyErr),
      pdpsFoldTerms env o acc1 items = .error e → pdpsFoldTerms env o acc2 items = .error e
  | [], _, _, _, h => Except.noConfusion h
  | (tk, tv) :: items, acc1, acc2, e, h => by
    rw [pdpsFoldTerms] at h ⊢
    cases hp : pdpsProcessTerm env o tk tv with
    | error e1 =>
      rw [hp] at h
      rw [bindErr] at h ⊢
      exact h
    | ok nr =>
      obtain ⟨n, r⟩ := nr
      rw [hp] at h
      simp only [bindOk] at h ⊢
      exact pdpsFoldTerms_error_indep env o items (dinsert acc1 n (.dict r))
        (dinsert acc2 n (.dict r)) e h

theorem pdpsProcessSd_write (env : Env) (acc : PyDict) (sd : PyVal)
    (out : PyDict) (k : PyVal) (h : pdpsProcessSd env acc sd = .ok out) :
    dlookup out k = (match pdpsSdWrite env k sd with
      | some r => some (.dict r)
      | Option.none => dlookup acc k) := by
  cases hc : pdpsSdChecks sd with
  | error e =>
    rw [pdpsProcessSd, hc, bindErr] at h
    exact Except.noConfusion h
  | ok p =>
    obtain ⟨od, td⟩ := p
    rw [pdpsProcessSd, hc] at h
    simp only [bindOk] at h
    have hw := pdpsFoldTerms_write env od td acc out k h
    simp only [pdpsSdWrite, hc]
    exact hw

theorem pdpsProcessSd_error_indep (env : Env) (acc1 acc2 : PyDict) (sd : PyVal) (e : PyErr)
    (h : pdpsProcessSd env acc1 sd = .error e) : pdpsProcessSd env acc2 sd = .error e := by
  cases hc : pdpsSdChecks sd with
  | error e0 =>
    rw [pdpsProcessSd, hc, bindErr] at h
    rw [pdpsProcessSd, hc, bindErr]
    exact h
  | ok p =>
    obtain ⟨od, td⟩ := p
    rw [pdpsProcessSd, hc] at h ⊢
    simp only [bindOk] at h ⊢
    exact pdpsFoldTerms_error_indep env od td acc1 acc2 e h

theorem pdpsFoldSds_write (env : Env) :
    ∀ (sds : List PyVal) (acc : PyDict) (out : PyDict) (k : PyVal),
      pdpsFoldSds env acc sds = .ok out →
      dlookup out k = (match pdpsSdsWrite env k sds with
        | some r => some (.dict r)
        | Option.none => dlookup acc k)
  | [], acc, out, k, h => by
    obtain rfl := Except.ok.inj h
    rfl
  | sd :: sds, acc, out, k, h => by
    rw [pdpsFoldSds] at h
    cases hp : pdpsProcessSd env acc sd with
    | error e =>
      rw [hp, bindErr] at h
      exact Except.noConfusion h
    | ok acc' =>
      rw [hp] at h
      simp only [bindOk] at h
      have ih := pdpsFoldSds_write env sds acc' out k h
      rw [pdpsSdsWrite]
      cases hw : pdpsSdsWrite env k sds with
      | some r2 =>
        rw [hw] at ih
        simpa using ih
      | none =>
        rw [hw] at ih
        simp only at ih ⊢
        rw [ih]
        have hpw := pdpsProcessSd_write env acc sd acc' k hp
        simpa using hpw

theorem pdpsFoldSds_error_indep (env : Env) :
    ∀ (sds : List PyVal) (acc1 acc2 : PyDict) (e : PyErr),
      pdpsFoldSds env acc1 sds = .error e → pdpsFoldSds env acc2 sds = .error e
  | [], _, _, _, h => Except.noConfusion h
  | sd :: sds, acc1, acc2, e, h => by
    rw [pdpsFoldSds] at h ⊢
    cases hp1 : pdpsProcessSd env acc1 sd with
    | error e1 =>
      have hp2 := pdpsProcessSd_error_indep env acc1 acc2 sd e1 hp1
      rw [hp1] at h
      rw [hp2]
      rw [bindErr] at h ⊢
      exact h
    | ok acc1' =>
      rw [hp1] at h
      simp only [bindOk] at h
      cases hp2 : pdpsProcessSd env acc2 sd with
      | error e2 =>
        have hp1' := pdpsProcessSd_error_indep env acc2 acc1 sd e2 hp2
        rw [hp1'] at hp1
        exact Except.noConfusion hp1
      | ok acc2' =>
        simp only [bindOk]
        exact pdpsFoldSds_error_indep env sds acc1' acc2' e h

/-- C6: last write wins, and duplicates never cause an error.  When the
whole call succeeds and `dpsSdsWrite`/`pdpsSdsWrite` (the fully-merged
options record of the *last* series-list entry resolving to name `k`)
yields `r`, the result map holds exactly `r` under `k` — any record an
earlier entry stored under `k` is completely replaced.  Moreover whether
processing succeeds never depends on the accumulated dict, so an entry
duplicating an earlier name cannot raise an error that a fresh dict would
not raise. -/
theorem C6_thm (env : Env) (sds : List PyVal) (k : PyVal) :
    (∀ (d out : PyVal) (r : PyDict),
      clean_dps env (.list sds) = .ok (d, out) →
      dpsSdsWrite env k sds = some r →
      ∃ dd, d = .dict dd ∧ dlookup dd k = some (.dict r)) ∧
    (∀ acc, (dpsFoldSds env acc sds).isOk = (dpsFoldSds env [] sds).isOk) ∧
    (∀ (d : PyVal) (r : PyDict),
      clean_pdps env (.list sds) = .ok d →
      pdpsSdsWrite env k sds = some r →
      ∃ dd, d = .dict dd ∧ dlookup dd k = some (.dict r)) ∧
    (∀ acc, (pdpsFoldSds env acc sds).isOk = (pdpsFoldSds env [] sds).isOk) := by
  refine ⟨fun d out r h hwr => ?_, fun acc => ?_, fun d r h hwr => ?_, fun acc => ?_⟩
  · cases sds with
    | nil => exact Except.noConfusion h
    | cons sd0 sds0 =>
      have h' : (dpsFoldSds env [] (sd0 :: sds0)) >>=
          (fun p => Except.ok ((.dict p.1 : PyVal), (.list p.2 : PyVal))) = .ok (d, out) := h
      cases hf : dpsFoldSds env [] (sd0 :: sds0) with
      | error e =>
        rw [hf, bindErr] at h'
        exact Except.noConfusion h'
      | ok p =>
        obtain ⟨dd, sl'⟩ := p
        rw [hf, bindOk] at h'
        have hpair := Except.ok.inj h'
        have h1 := congrArg Prod.fst hpair
        simp only at h1
        refine ⟨dd, h1.symm, ?_⟩
        have hwrite := dpsFoldSds_write env (sd0 :: sds0) [] (dd, sl') k hf
        rw [hwr] at hwrite
        simpa using hwrite
  · cases h1 : dpsFoldSds env acc sds with
    | error e =>
      rw [dpsFoldSds_error_indep env sds acc [] e h1]
    | ok d =>
      cases h2 : dpsFoldSds env [] sds with
      | ok d2 => rfl
      | error e2 =>
        rw [dpsFoldSds_error_indep env sds [] acc e2 h2] at h1
        exact Except.noConfusion h1
  · cases sds with
    | nil => exact Except.noConfusion h
    | cons sd0 sds0 =>
      have h' : (pdpsFoldSds env [] (sd0 :: sds0)) >>=
          (fun d0 => Except.ok (.dict d0 : PyVal)) = .ok d := h
      cases hf : pdpsFoldSds env [] (sd0 :: sds0) with
      | error e =>
        rw [hf, bindErr] at h'
        exact Except.noConfusion h'
      | ok dd =>
        rw [hf, bindOk] at h'
        have h1 := Except.ok.inj h'
        refine ⟨dd, h1.symm, ?_⟩
        have hwrite := pdpsFoldSds_write env (sd0 :: sds0) [] dd k hf
        rw [hwr] at hwrite
        simpa using hwrite
  · cases h1 : pdpsFoldSds env acc sds with
    | error e =>
      rw [pdpsFoldSds_error_indep env sds acc [] e h1]
    | ok d =>
      cases h2 : pdpsFoldSds env [] sds with
      | ok d2 => rfl
      | error e2 =>
        rw [pdpsFoldSds_error_indep env sds [] acc e2 h2] at h1
        exact Except.noConfusion h1

/-- C6 (witness): two dict terms resolving to the same name `p`; the later
one (field `title`) fully replaces the earlier one (field `price`) in the
result map of a successful call. -/
theorem C6_witness :
    ∃ dd, (PyVal.dict [(.str "p", .dict [(.str "source", .qset 0), (.str "field", .str "title"),
        (.str "field_alias", .str "p")])]) = .dict dd ∧
      dlookup dd (.str "p") = some (.dict [(.str "source", .qset 0), (.str "field", .str "title"),
        (.str "field_alias", .str "p")]) :=
  (C6_thm env0
    [.dict [(.str "options", .dict [(.str "source", .qset 0)]),
      (.str "terms", .list [.dict [(.str "_new_name", .str "p"), (.str "field", .str "price")],
        .dict [(.str "_new_name", .str "p"), (.str "field", .str "title")]])]]
    (.str "p")).1
    (.dict [(.str "p", .dict [(.str "source", .qset 0), (.str "field", .str "title"),
      (.str "field_alias", .str "p")])])
    (.list [.dict [(.str "options", .dict [(.str "source", .qset 0)]),
      (.str "terms", .list [.dict [(.str "field", .str "price")],
        .dict [(.str "field", .str "title")]])]])
    [(.str "source", .qset 0), (.str "field", .str "title"), (.str "field_alias", .str "p")]
    rfl rfl

/-! ## C1 — the Field-Lookup Validator -/

/-- When the (rejoined) term is an annotation/extra name, the validator core
accepts it immediately, whatever the model. -/
theorem vfltSegs_anno (q : Query) (om : Option Model) (segs : List String)
    (h : dunderJoin segs ∈ q.annotationKeys ∨ dunderJoin segs ∈ q.extraKeys) :
    vfltSegs q om segs = .ok (dunderJoin segs) := by
  cases segs with
  | nil =>
    cases om with
    | none => exact if_pos h
    | some m => exact if_pos h
  | cons s rest =>
    cases om with
    | none => exact if_pos h
    | some m => exact if_pos h

/-- Unfolding of `vfltSegs` on a nonempty segment list once the
annotation/extra check has failed. -/
theorem vfltSegs_cons (q : Query) (m : Model) (s : String) (rest : List String)
    (hnot : ¬ (dunderJoin (s :: rest) ∈ q.annotationKeys ∨
      dunderJoin (s :: rest) ∈ q.extraKeys)) :
    vfltSegs q (some m) (s :: rest) = vfltStep q m s rest := by
  rw [vfltSegs, if_neg hnot]
  rfl

theorem specResolves_ok (q : Query) :
    ∀ (om : Option Model) (segs : List String) (lab : String),
      SpecResolves q om segs lab → vfltSegs q om segs = .ok lab := by
  intro om segs lab h
  induction h with
  | anno om segs hmem => exact vfltSegs_anno q om segs hmem
  | field m s f hnot hmem hget =>
    rw [vfltSegs_cons q m s [] hnot, vfltStep, if_neg (not_not_intro hmem), hget]
  | descend m s rest f lab hne hnot hmem hget hrec ih =>
    rw [vfltSegs_cons q m s rest hnot, vfltStep, if_neg (not_not_intro hmem), hget]
    cases rest with
    | nil => exact absurd rfl hne
    | cons r1 rs => exact ih

/-- C1: the Field-Lookup Validator returns without error — yielding the term
itself — when the full term is among the query's annotation/extra names;
it returns without error — yielding the final field's display label or an
annotation term — whenever the segments resolve in the sense of
`SpecResolves`; and when the term is no annotation/extra name and its
leading segment is not among the model's reachable field names, it raises
an `APIInputError` whose message enumerates `get_all_field_names`. -/
theorem C1_thm (m : Model) (q : Query) (s : String) (om : Option Model)
    (segs : List String) (lab : String) (s0 : String) (rest : List String) :
    ((s ∈ q.annotationKeys ∨ s ∈ q.extraKeys) →
      validate_field_lookup_term (some m) (.str s) q = .ok s) ∧
    (SpecResolves q om segs lab → vfltSegs q om segs = .ok lab) ∧
    (SpecResolves q (some m) (pySplitDunder s) lab →
      validate_field_lookup_term (some m) (.str s) q = .ok lab) ∧
    (¬ (s ∈ q.annotationKeys ∨ s ∈ q.extraKeys) →
      pySplitDunder s = s0 :: rest →
      s0 ∉ get_all_field_names m →
      validate_field_lookup_term (some m) (.str s) q =
        .error (.apiInputError (fieldLookupErrMsg s0 (get_all_field_names m))) ∧
      fieldLookupErrMsg s0 (get_all_field_names m) =
        "Field '" ++ s0 ++ "' does not exist. Valid lookups are " ++
          String.intercalate ", " (get_all_field_names m) ++ ".") := by
  refine ⟨fun h => ?_, specResolves_ok q om segs lab, fun h => ?_, fun hna hsplit hnm => ?_⟩
  · show vfltSegs q (some m) (pySplitDunder s) = .ok s
    have hok := vfltSegs_anno q (some m) (pySplitDunder s)
      (by rw [dunderJoin_pySplitDunder]; exact h)
    rw [dunderJoin_pySplitDunder] at hok
    exact hok
  · exact specResolves_ok q (some m) (pySplitDunder s) lab h
  · refine ⟨?_, rfl⟩
    show vfltSegs q (some m) (pySplitDunder s) = _
    rw [hsplit]
    have hjoin : dunderJoin (s0 :: rest) = s := by
      rw [← hsplit, dunderJoin_pySplitDunder]
    have hnot : ¬ (dunderJoin (s0 :: rest) ∈ q.annotationKeys ∨
        dunderJoin (s0 :: rest) ∈ q.extraKeys) := by
      rw [hjoin]
      exact hna
    rw [vfltSegs_cons q m s0 rest hnot, vfltStep, if_pos hnm]

/-- C1 (witness): on the fixture models, an annotation term, a two-segment
relation term and an unknown leading segment. -/
theorem C1_witness :
    validate_field_lookup_term (some bookModel) (.str "total") ⟨["total"], []⟩ = .ok "total" ∧
    validate_field_lookup_term (some bookModel) (.str "author__name") ⟨[], []⟩ =
      .ok "author name" ∧
    validate_field_lookup_term (some bookModel) (.str "oops") ⟨[], []⟩ =
      .error (.apiInputError (fieldLookupErrMsg "oops" (get_all_field_names bookModel))) := by
  refine ⟨(C1_thm bookModel ⟨["total"], []⟩ "total" Option.none [] "" "" []).1
    (Or.inl (by decide)), ?_, ?_⟩
  · have hres : SpecResolves ⟨[], []⟩ (some bookModel) (pySplitDunder "author__name")
        "author name" := by
      have hsplit : pySplitDunder "author__name" = ["author", "name"] := by decide
      rw [hsplit]
      refine SpecResolves.descend bookModel "author" ["name"] bookAuthorF "author name"
        (by decide) (by decide) (by decide) rfl ?_
      exact SpecResolves.field authorModel "name" authorNameF (by decide) (by decide) rfl
    exact (C1_thm bookModel ⟨[], []⟩ "author__name" Option.none [] "author name" "" []).2.2.1 hres
  · exact ((C1_thm bookModel ⟨[], []⟩ "oops" Option.none [] "" "oops" []).2.2.2
      (by decide) (by decide) (by decide)).1

end Chartit
